import Mathlib

/-!
A shallow embedding of the scoring / auditing pipeline of the `eeat`
repository (content-quality grading: claim auditing, compliance scanning,
deterministic rule checks, advisory-rater blending, recommendation ranking).

Conventions of the embedding:
* Python `float` arithmetic on the small rubric values used here is modelled
  by exact rational arithmetic (`ℚ`); `round(x, 1)` is modelled by
  round-half-to-even on tenths, matching CPython on the values that occur.
* Python strings are `String`; text processing works on `List Char`.
  Lower-casing and the `\w` / `\s` / `\d` character classes use their ASCII
  meaning.
* The regular expressions in the source use only literals, alternation,
  option, `\b`, and greedy `+` / `*` / `?` over single-character classes;
  `matchEnds` below returns the candidate matches of such a pattern in the
  backtracking preference order of CPython `re` (leftmost, greedy), so the
  head of the list is the match `re.search` / `re.finditer` reports.
-/

namespace EEAT

/-- ASCII lower-casing, the fragment of Python `str.lower` exercised here. -/
def lowerChar (c : Char) : Char :=
  if 'A' ≤ c ∧ c ≤ 'Z' then Char.ofNat (c.toNat + 32) else c

/-- ASCII whitespace, the fragment of Python `\s` / `str.strip` used here. -/
def isWs (c : Char) : Bool :=
  c = ' ' ∨ c = '\t' ∨ c = '\n' ∨ c = '\r' ∨ c = '\x0b' ∨ c = '\x0c'

/-- ASCII word characters, the fragment of Python `\w` exercised here. -/
def isWordChar (c : Char) : Bool :=
  ('a' ≤ c ∧ c ≤ 'z') ∨ ('A' ≤ c ∧ c ≤ 'Z') ∨ ('0' ≤ c ∧ c ≤ '9') ∨ c = '_'

def isDigitChar (c : Char) : Bool := '0' ≤ c ∧ c ≤ '9'

/-- Python `p in s` on lists of characters. -/
def strContains (hay need : List Char) : Bool :=
  match hay with
  | [] => need.isEmpty
  | _ :: rest => need.isPrefixOf hay || strContains rest need

/-- Lower-cased character data of a string. -/
def lowerData (s : String) : List Char := s.data.map lowerChar

/-- Python `needle in haystack` after `.lower()` on both sides. -/
def containsCI (hay : String) (need : String) : Bool :=
  strContains (lowerData hay) (lowerData need)

/-- Python `str.strip()` on character lists. -/
def stripChars (l : List Char) : List Char :=
  ((l.dropWhile isWs).reverse.dropWhile isWs).reverse

/-- Python `s.startswith(p)`. -/
def startsWithB (s p : String) : Bool := p.data.isPrefixOf s.data

/-- Python word-boundary test `\b` between an optional previous character
and an optional next character (string edges count as non-word). -/
def isBoundary (prev next : Option Char) : Bool :=
  (match prev with | none => false | some c => isWordChar c)
    ≠ (match next with | none => false | some c => isWordChar c)

/-- Regular-expression skeleton covering the pattern features the source
uses.  `star f` is a greedy `[class]*`; `+` is encoded as `seq (chr f)
(star f)`, and alternation / option are explicit. -/
inductive RE : Type
  | eps : RE
  | chr : (Char → Bool) → RE
  | seq : RE → RE → RE
  | alt : RE → RE → RE
  | opt : RE → RE
  | bnd : RE
  | star : (Char → Bool) → RE

namespace RE

/-- Candidate endpoints of a greedy `[class]*` at the head of `s`,
longest first; each entry is (remaining suffix, new previous char). -/
def starEnds (f : Char → Bool) (p : Option Char) : List Char → List (List Char × Option Char)
  | [] => [([], p)]
  | c :: rest =>
      if f c then starEnds f (some c) rest ++ [(c :: rest, p)]
      else [(c :: rest, p)]

/-- All ways `r` can match a prefix of `s` (given the character just before
`s` for `\b`), in CPython backtracking preference order: each entry is the
remaining suffix together with the character just before it. -/
def matchEnds : RE → Option Char → List Char → List (List Char × Option Char)
  | .eps, p, s => [(s, p)]
  | .chr f, _, s =>
      match s with
      | [] => []
      | c :: rest => if f c then [(rest, some c)] else []
  | .seq a b, p, s =>
      (matchEnds a p s).flatMap (fun q => matchEnds b q.2 q.1)
  | .alt a b, p, s => matchEnds a p s ++ matchEnds b p s
  | .opt a, p, s => matchEnds a p s ++ [(s, p)]
  | .bnd, p, s => if isBoundary p s.head? then [(s, p)] else []
  | .star f, p, s => starEnds f p s

/-- Literal word, one `chr` per character (exact match). -/
def lit : List Char → RE
  | [] => .eps
  | c :: rest => .seq (.chr (fun x => x = c)) (lit rest)

/-- Literal from a string. -/
def lits (s : String) : RE := lit s.data

def ws : RE := .chr isWs
def wsPlus : RE := .seq ws (.star isWs)
def wsStar : RE := .star isWs
def digit : RE := .chr isDigitChar
def digitPlus : RE := .seq digit (.star isDigitChar)
def anyChar : RE := .chr (fun c => c ≠ '\n')
def altList : List RE → RE
  | [] => .chr (fun _ => false)
  | [r] => r
  | r :: rest => .alt r (altList rest)
def seqList : List RE → RE
  | [] => .eps
  | [r] => r
  | r :: rest => .seq r (seqList rest)

end RE

/-- Previous character before position `i` of `text` (none at the start). -/
def prevAt (text : List Char) (i : Nat) : Option Char :=
  if i = 0 then none else text[i - 1]?

/-- Leftmost match of `r` at or after offset `i` in the suffix `s` of the
subject, where `p` is the character just before `s`; returns
(start, end) offsets into the whole subject. -/
def findFromAux (r : RE) (p : Option Char) (s : List Char) (i : Nat) :
    Option (Nat × Nat) :=
  match s with
  | [] =>
      match (RE.matchEnds r p []).head? with
      | some q => some (i, i + (([] : List Char).length - q.1.length))
      | none => none
  | c :: rest =>
      match (RE.matchEnds r p (c :: rest)).head? with
      | some q => some (i, i + ((c :: rest).length - q.1.length))
      | none => findFromAux r (some c) rest (i + 1)

/-- Python `re.search` from offset `start`: leftmost match (start, end). -/
def findFrom (r : RE) (text : List Char) (start : Nat) : Option (Nat × Nat) :=
  findFromAux r (prevAt text start) (text.drop start) start

/-- Whether `re.search(r, text)` succeeds. -/
def searchB (r : RE) (text : List Char) : Bool := (findFrom r text 0).isSome

def finditerAux (r : RE) (text : List Char) : Nat → Nat → List (Nat × Nat)
  | _, 0 => []
  | pos, fuel + 1 =>
      (findFrom r text pos).elim []
        (fun se => se :: finditerAux r text
          (if se.2 ≤ se.1 then se.1 + 1 else se.2) fuel)

/-- Python `re.finditer`: all non-overlapping matches, left to right. -/
def finditer (r : RE) (text : List Char) : List (Nat × Nat) :=
  finditerAux r text 0 (text.length + 1)

/-- Boolean lexicographic order on character lists (Python string `<=`). -/
def lexLe : List Char → List Char → Bool
  | [], _ => true
  | _ :: _, [] => false
  | a :: as, b :: bs => if a < b then true else if a = b then lexLe as bs else false

def strLe (a b : String) : Bool := lexLe a.data b.data

/-- Python truthiness of an optional string field. -/
def truthyS : Option String → Bool
  | none => false
  | some s => !s.isEmpty

-- ═══════════════════════════════════════════════════════════════════════════
-- Data model (app/models.py)
-- ═══════════════════════════════════════════════════════════════════════════

inductive YMYLRisk | high | medium | low
  deriving DecidableEq, Repr

inductive ContentPreset
  | general | legal_practice_area | legal_location | legal_faq | legal_guide
  | legal_case_results | medical | finance | product_review | diy_tutorial
  deriving DecidableEq, Repr

/-- The `.value` string of each `ContentPreset` enum member. -/
def presetValue : ContentPreset → String
  | .general => "general"
  | .legal_practice_area => "legal_practice_area"
  | .legal_location => "legal_location"
  | .legal_faq => "legal_faq"
  | .legal_guide => "legal_guide"
  | .legal_case_results => "legal_case_results"
  | .medical => "medical"
  | .finance => "finance"
  | .product_review => "product_review"
  | .diy_tutorial => "diy_tutorial"

inductive EvidenceGrade | supported | weakly_supported | unsupported | needs_qualification
  deriving DecidableEq, Repr

inductive FixScope | global_fix | new_page | page_level
  deriving DecidableEq, Repr

inductive EffortLevel | easy | moderate | heavy
  deriving DecidableEq, Repr

inductive ImpactLevel | high | medium | low
  deriving DecidableEq, Repr

inductive ClaimType
  | statistic | safety | legal_directive | medical_directive | financial
  | performance | comparative | deadline | procedural | outcome
  deriving DecidableEq, Repr

structure AuthorInfo where
  name : Option String := none
  bio : Option String := none
  credentials : Option String := none
  profile_url : Option String := none
  has_author_page : Bool := false
  deriving DecidableEq, Repr

structure DateInfo where
  published : Option String := none
  updated : Option String := none
  reviewed : Option String := none
  deriving DecidableEq, Repr

structure LinkInfo where
  url : String
  anchor_text : String
  is_external : Bool := true
  domain : String := ""
  is_government : Bool := false
  is_educational : Bool := false
  is_broken : Bool := false
  deriving DecidableEq, Repr

structure SiteSignals where
  has_about_page : Bool := false
  has_contact_page : Bool := false
  has_privacy_policy : Bool := false
  has_terms : Bool := false
  has_editorial_policy : Bool := false
  has_corrections_policy : Bool := false
  has_attorney_roster : Bool := false
  contact_paths : List String := []
  deriving DecidableEq, Repr

structure ContentSection where
  heading : String := ""
  text : String := ""
  level : Int := 0
  index : Int := 0
  deriving DecidableEq, Repr

structure ExtractedContent where
  title : String := ""
  meta_description : String := ""
  url : Option String := none
  domain : Option String := none
  raw_html : String := ""
  plain_text : String := ""
  word_count : Int := 0
  sections : List ContentSection := []
  author : AuthorInfo := {}
  dates : DateInfo := {}
  outbound_links : List LinkInfo := []
  internal_links : List LinkInfo := []
  images : List String := []
  site_signals : SiteSignals := {}
  has_schema_markup : Bool := false
  schema_types : List String := []
  disclaimers : List String := []
  disclosure_texts : List String := []
  deriving DecidableEq, Repr

structure Claim where
  text : String
  claim_type : ClaimType
  section_index : Int := 0
  evidence_grade : EvidenceGrade := .unsupported
  nearest_citation : Option String := none
  explanation : String := ""
  deriving DecidableEq, Repr

structure CitationAudit where
  total_claims : Int := 0
  supported : Int := 0
  weakly_supported : Int := 0
  unsupported : Int := 0
  needs_qualification : Int := 0
  claims : List Claim := []
  low_trust_sources : List String := []
  deriving DecidableEq, Repr

structure SignalEvidence where
  signal : String
  found : Bool
  quote : String := ""
  location : String := ""
  points : ℚ := 0
  explanation : String := ""
  deriving DecidableEq, Repr

structure DimensionScore where
  name : String
  score : ℚ := 0
  max_score : ℚ := 25
  signals : List SignalEvidence := []
  summary : String := ""
  deriving DecidableEq, Repr

structure ComplianceFlag where
  rule : String
  severity : String := "warning"
  text : String := ""
  location : String := ""
  explanation : String := ""
  fix : String := ""
  deriving DecidableEq, Repr

structure EEATScore where
  overall : ℚ := 0
  experience : DimensionScore := { name := "Experience" }
  expertise : DimensionScore := { name := "Expertise" }
  authoritativeness : DimensionScore := { name := "Authoritativeness" }
  trust : DimensionScore := { name := "Trust" }
  ymyl_risk : YMYLRisk := .low
  preset_used : ContentPreset := .general
  compliance_flags : List ComplianceFlag := []
  deriving DecidableEq, Repr

structure Recommendation where
  title : String
  what_to_change : String
  why_it_matters : String
  rec_where : String := ""
  section_index : Option Int := none
  copy_block : String := ""
  effort : EffortLevel := .easy
  impact : ImpactLevel := .high
  dimension : String := ""
  points_potential : ℚ := 0
  scope : FixScope := .page_level
  deriving DecidableEq, Repr

-- ═══════════════════════════════════════════════════════════════════════════
-- Claim detection and citation auditing (app/analysis/claims.py)
-- ═══════════════════════════════════════════════════════════════════════════

namespace RE

/-- A single literal character. -/
def one (c : Char) : RE := .chr (fun x => x = c)

/-- Literal word followed by an optional plural `s`. -/
def optS (s : String) : RE := .seq (lits s) (.opt (one 's'))

end RE

open RE in
/-- `STAT_PATTERNS` of claims.py. -/
def STAT_PATTERNS : List RE := [
  seqList [digitPlus, wsStar, one '%'],
  seqList [one '$', .seq (.chr (fun c => isDigitChar c ∨ c = ',')) (.star (fun c => isDigitChar c ∨ c = ','))],
  seqList [lits "studie", .opt (one 's'), wsPlus, lits "show"],
  seqList [lits "research", wsPlus, altList [optS "show", optS "indicate", optS "suggest", lits "found"]],
  seqList [lits "according", wsPlus, lits "to"],
  seqList [lits "data", wsPlus, altList [optS "show", optS "indicate", optS "suggest"]],
  lits "survey",
  seqList [lits "on", wsPlus, lits "average"],
  seqList [lits "approximately", wsPlus, digit],
  seqList [lits "estimated", wsPlus, digit]]

open RE in
/-- `LEGAL_DIRECTIVE_PATTERNS` of claims.py. -/
def LEGAL_DIRECTIVE_PATTERNS : List RE := [
  seqList [lits "statute", wsPlus, lits "of", wsPlus, optS "limitation", wsPlus, lits "is", wsPlus, digit],
  seqList [lits "you", wsPlus,
    altList [lits "must", seqList [lits "have", wsPlus, lits "to"],
      seqList [lits "are", wsPlus, lits "required", wsPlus, lits "to"]],
    wsPlus, lits "file"],
  seqList [lits "deadline", wsPlus, altList [lits "is", lits "of"], wsPlus, digit],
  seqList [lits "within", wsPlus, digitPlus, wsPlus, altList [optS "day", optS "month", optS "year"]],
  seqList [lits "notice", wsPlus, lits "requirement"],
  seqList [lits "you", wsPlus, altList [lits "can", lits "may"], wsPlus, lits "sue"],
  seqList [lits "liable", wsPlus, lits "for"],
  seqList [lits "entitled", wsPlus, lits "to"],
  seqList [lits "burden", wsPlus, lits "of", wsPlus, lits "proof"],
  seqList [lits "comparative", wsPlus, lits "fault"],
  seqList [lits "contributory", wsPlus, lits "negligence"]]

open RE in
/-- `MEDICAL_DIRECTIVE_PATTERNS` of claims.py. -/
def MEDICAL_DIRECTIVE_PATTERNS : List RE := [
  seqList [lits "you", wsPlus, lits "should", wsPlus,
    altList [lits "take", lits "stop", lits "avoid", lits "consult"]],
  seqList [lits "recommended", wsPlus, lits "dosage"],
  seqList [lits "side", wsPlus, optS "effect", wsPlus, lits "include"],
  seqList [altList [lits "safe", lits "unsafe"], wsPlus, lits "to"]]

open RE in
/-- `OUTCOME_PATTERNS` of claims.py. -/
def OUTCOME_PATTERNS : List RE := [
  seqList [lits "you", wsPlus, lits "will", wsPlus,
    altList [lits "get", lits "receive", lits "win", lits "recover", lits "obtain"]],
  seqList [lits "guarantee", .opt (one 'd'), wsPlus],
  seqList [lits "always", wsPlus, optS "result", wsPlus, lits "in"],
  seqList [lits "average", wsPlus, lits "settlement"],
  seqList [lits "typical", wsPlus, altList [lits "recovery", lits "verdict", lits "settlement"]],
  seqList [lits "you", wsPlus, lits "can", wsPlus, lits "expect", wsPlus, lits "to", wsPlus,
    altList [lits "receive", lits "recover"]]]

open RE in
/-- `COMPARATIVE_PATTERNS` of claims.py. -/
def COMPARATIVE_PATTERNS : List RE := [
  seqList [.bnd, altList [lits "best", lits "top", lits "most", lits "leading",
    seqList [one '#', wsStar, one '1'], seqList [lits "number", wsStar, lits "one"],
    lits "premier"], .bnd],
  seqList [lits "better", wsPlus, lits "than"],
  seqList [lits "more", wsPlus, lits "effective", wsPlus, lits "than"],
  optS "outperform",
  seqList [lits "superior", wsPlus, lits "to"]]

open RE in
/-- `PROCEDURAL_PATTERNS` of claims.py. -/
def PROCEDURAL_PATTERNS : List RE := [
  seqList [altList [lits "first", lits "then", lits "next"], .opt (one ','), wsPlus,
    lits "you", wsPlus,
    altList [lits "must", lits "should", seqList [lits "need", wsPlus, lits "to"], lits "will"]],
  seqList [lits "step", wsPlus, digit],
  seqList [lits "file", wsPlus, altList [lits "a", lits "the", lits "your"], wsPlus],
  seqList [lits "serve", wsPlus, altList [lits "the", lits "a"], wsPlus],
  seqList [lits "appeal", wsPlus, altList [lits "the", lits "a", lits "within"]]]

/-- First pattern of a family that matches the (lower-cased) sentence,
returning the claim type and the matched text, as in `_match_claim_type`. -/
def familyHit (pats : List RE) (ct : ClaimType) (s : List Char) : List (ClaimType × String) :=
  match pats.findSome? (fun r => findFrom r s 0) with
  | some q => [(ct, String.mk ((s.drop q.1).take (q.2 - q.1)))]
  | none => []

/-- `_match_claim_type`: all claim types matching a sentence, with matched
text; one hit per family, families in the source order. -/
def _match_claim_type (sentence : String) : List (ClaimType × String) :=
  let s := lowerData sentence
  familyHit STAT_PATTERNS .statistic s
    ++ familyHit LEGAL_DIRECTIVE_PATTERNS .legal_directive s
    ++ familyHit MEDICAL_DIRECTIVE_PATTERNS .medical_directive s
    ++ familyHit OUTCOME_PATTERNS .outcome s
    ++ familyHit COMPARATIVE_PATTERNS .comparative s
    ++ familyHit PROCEDURAL_PATTERNS .procedural s

/-- One step of the naive sentence splitter `_sentences`: split at each
whitespace run preceded by `.`, `!` or `?` (Python
`re.split(r"(?<=[.!?])\s+", text)`).  The fuel argument only bounds the
recursion (each step consumes at least one character, so any fuel of at
least the text length gives the splitter itself). -/
def sentencesAux (fuel : Nat) (prev : Char) (acc : List Char) (s : List Char) :
    List (List Char) :=
  match fuel, s with
  | _, [] => [acc.reverse]
  | 0, _ => [acc.reverse]
  | fuel + 1, c :: rest =>
      if isWs c ∧ (prev = '.' ∨ prev = '!' ∨ prev = '?') then
        acc.reverse :: sentencesAux fuel ' ' [] (rest.dropWhile isWs)
      else sentencesAux fuel c (c :: acc) rest

/-- `_sentences`: naive sentence splitter, dropping fragments of at most
20 characters after stripping. -/
def _sentences (text : String) : List String :=
  (sentencesAux text.data.length ' ' [] text.data).filterMap (fun l =>
    let t := stripChars l
    if t.length > 20 then some (String.mk t) else none)

/-- `_grade_claim`: grade a claim against the links of its section. -/
def _grade_claim (_sentence : String) (section_links : List LinkInfo) :
    EvidenceGrade × Option String × String :=
  match section_links with
  | [] => (.unsupported, none, "No citation found near this claim.")
  | best_link :: _ =>
      if best_link.is_government ∨ best_link.is_educational then
        (.supported, some best_link.url,
          "Supported by authoritative source (" ++ best_link.domain ++ ").")
      else if best_link.domain ∈
          ["nih.gov", "cdc.gov", "who.int", "law.cornell.edu", "uscourts.gov"] then
        (.supported, some best_link.url,
          "Supported by trusted source (" ++ best_link.domain ++ ").")
      else if (["blog", "forum", "reddit", "quora", "medium.com", "wikipedia"].any
          (fun lt => strContains best_link.domain.data lt.data
            || strContains best_link.url.data lt.data)) then
        (.weakly_supported, some best_link.url,
          "Citation present but source may lack authority (" ++ best_link.domain ++ ").")
      else
        (.supported, some best_link.url, "Citation present (" ++ best_link.domain ++ ").")

open RE in
/-- The overbroad-language patterns of `_is_overbroad`. -/
def OVERBROAD_PATTERNS : List RE := [
  seqList [.bnd, lits "always", .bnd],
  seqList [.bnd, lits "never", .bnd],
  seqList [.bnd, lits "everyone", .bnd],
  seqList [.bnd, lits "no one", .bnd],
  seqList [.bnd, lits "guarantee", .opt (one 'd'), .bnd],
  seqList [.bnd, lits "100", wsStar, one '%', .bnd],
  seqList [.bnd, lits "all", wsPlus, optS "case", .bnd],
  seqList [.bnd, lits "without", wsPlus, lits "exception", .bnd]]

/-- `_is_overbroad`: absolute / universal language check. -/
def _is_overbroad (sentence : String) : Bool :=
  OVERBROAD_PATTERNS.any (fun r => searchB r (lowerData sentence))

/-- The fixed explanation attached by the overbroad-language override. -/
def overbroadExplanation : String :=
  "This claim uses absolute language and should be scoped with conditions or jurisdiction."

/-- The per-section link index built at the top of `audit_claims`: a link is
associated with every section whose text contains its anchor text
(case-insensitively); lists keep the source append order. -/
def sectionLinksFor (content : ExtractedContent) (i : Int) : List LinkInfo :=
  content.outbound_links.flatMap (fun link =>
    content.sections.flatMap (fun sec =>
      if !link.anchor_text.isEmpty && containsCI sec.text link.anchor_text
          && sec.index = i then [link] else []))

/-- The claims produced by `audit_claims` for one section. -/
def sectionClaims (sec : ContentSection) (links_nearby : List LinkInfo) : List Claim :=
  (_sentences sec.text).flatMap (fun sentence =>
    (_match_claim_type sentence).map (fun m =>
      let g := _grade_claim sentence links_nearby
      { text := sentence
        claim_type := m.1
        section_index := sec.index
        evidence_grade := if _is_overbroad sentence then .needs_qualification else g.1
        nearest_citation := g.2.1
        explanation := if _is_overbroad sentence then overbroadExplanation else g.2.2 }))

/-- The full claim list of `audit_claims`, sections in order. -/
def allClaims (content : ExtractedContent) : List Claim :=
  content.sections.flatMap (fun sec =>
    sectionClaims sec (sectionLinksFor content sec.index))

/-- `audit_claims`: the full claim detection and grading pipeline.  The
low-trust set is modelled as deduplication followed by a lexicographic sort
(`sorted` over a Python `set`). -/
def audit_claims (content : ExtractedContent) : CitationAudit :=
  let all_claims := allClaims content
  let low_trust := (all_claims.filterMap (fun c =>
    if c.evidence_grade = .weakly_supported && truthyS c.nearest_citation then
      c.nearest_citation else none)).dedup
  { total_claims := all_claims.length
    supported := all_claims.countP (fun c => c.evidence_grade = .supported)
    weakly_supported := all_claims.countP (fun c => c.evidence_grade = .weakly_supported)
    unsupported := all_claims.countP (fun c => c.evidence_grade = .unsupported)
    needs_qualification :=
      all_claims.countP (fun c => c.evidence_grade = .needs_qualification)
    claims := all_claims
    low_trust_sources := low_trust.insertionSort (fun a b => strLe a b = true) }

-- ═══════════════════════════════════════════════════════════════════════════
-- Rounding (Python round(x, 1), half-to-even on the exact value)
-- ═══════════════════════════════════════════════════════════════════════════

/-- Round-half-to-even to an integer. -/
def roundHalfEven (x : ℚ) : ℤ :=
  let n := ⌊x⌋
  if x - n < 1 / 2 then n
  else if (1 : ℚ) / 2 < x - n then n + 1
  else if n % 2 = 0 then n else n + 1

/-- Python `round(x, 1)` modelled on exact rationals. -/
def round1 (x : ℚ) : ℚ := (roundHalfEven (x * 10) : ℚ) / 10

-- ═══════════════════════════════════════════════════════════════════════════
-- Deterministic rules engine (app/scoring/rules_engine.py)
-- ═══════════════════════════════════════════════════════════════════════════

/-- `_signal`: build one evidence record; points are zeroed when the signal
was not found, and the quote is truncated to 300 characters. -/
def _signal (name : String) (found : Bool) (pts : ℚ) (quote : String := "")
    (location : String := "") (explanation : String := "") : SignalEvidence :=
  { signal := name
    found := found
    points := if found then pts else 0
    quote := String.mk (quote.data.take 300)
    location := location
    explanation := explanation }

/-- Python slice `text[max(0, s - back) : min(len, e + fwd)]` followed by
`.strip()`, used for evidence quotes around a regex match. -/
def sliceAround (text : List Char) (s e back fwd : Nat) : String :=
  String.mk (stripChars ((text.drop (s - back)).take ((e + fwd) - (s - back))))

/-- Case-insensitive `re.search` over a string, as positions. -/
def searchCI (r : RE) (text : String) : Option (Nat × Nat) :=
  findFrom r (lowerData text) 0

-- Trust checks

def _check_about_page (c : ExtractedContent) : SignalEvidence :=
  _signal "About page linked" c.site_signals.has_about_page 2.0
    "" ""
    ("An \x27About\x27 page establishes site identity and ownership.")

def _check_contact_page (c : ExtractedContent) : SignalEvidence :=
  _signal "Contact information present"
    (c.site_signals.has_contact_page || !c.site_signals.contact_paths.isEmpty) 2.0
    (String.intercalate ", " (c.site_signals.contact_paths.take 3)) ""
    "Reachable contact info builds reader trust."

def _check_privacy_policy (c : ExtractedContent) : SignalEvidence :=
  _signal "Privacy policy linked" c.site_signals.has_privacy_policy 1.0
    "" ""
    "A privacy policy is a baseline trust signal for any website."

def _check_terms (c : ExtractedContent) : SignalEvidence :=
  _signal "Terms of service linked" c.site_signals.has_terms 1.0
    "" ""
    "Terms of service clarify the relationship between site and user."

def _check_editorial_policy (c : ExtractedContent) : SignalEvidence :=
  _signal "Editorial / review policy" c.site_signals.has_editorial_policy 2.0
    "" ""
    "An editorial policy signals content review processes."

def _check_dates (c : ExtractedContent) : SignalEvidence :=
  let has_pub := truthyS c.dates.published
  let has_upd := truthyS c.dates.updated
  let detail := (if has_pub then ["Published: " ++ c.dates.published.getD ""] else [])
    ++ (if has_upd then ["Updated: " ++ c.dates.updated.getD ""] else [])
  _signal "Dates shown (published / updated)" (has_pub || has_upd) 2.0
    (String.intercalate "; " detail) ""
    "Visible dates let readers judge freshness and maintenance."

def _check_citations_count (c : ExtractedContent) : SignalEvidence :=
  let ext := c.outbound_links
  let quality := ext.filter (fun l => l.is_government || l.is_educational)
  let count := ext.length
  let q_count := quality.length
  _signal "Outbound citation count and quality" (count > 0)
    (min 3.0 ((count : ℚ) * 0.3 + (q_count : ℚ) * 0.5))
    (toString count ++ " outbound links, " ++ toString q_count ++ " high-authority") ""
    "Credible outbound citations support claims and build trust."

def _check_disclaimers (c : ExtractedContent) : SignalEvidence :=
  _signal "Disclaimer / legal notice present" (!c.disclaimers.isEmpty) 2.0
    ((c.disclaimers.head?.map (fun s => String.mk (s.data.take 200))).getD "") ""
    "Disclaimers set expectations and reduce misleading impressions."

def _check_disclosures (c : ExtractedContent) : SignalEvidence :=
  _signal "Affiliate / advertising disclosure" (!c.disclosure_texts.isEmpty) 1.5
    ((c.disclosure_texts.head?.map (fun s => String.mk (s.data.take 200))).getD "") ""
    "Disclosures are required when content is monetized."

def _check_schema (c : ExtractedContent) : SignalEvidence :=
  _signal "Structured data (schema.org)" c.has_schema_markup 1.5
    (String.intercalate ", " (c.schema_types.take 5)) ""
    ("Schema markup helps search engines understand the page\x27s purpose.")

def TRUST_CHECKS : List (ExtractedContent → SignalEvidence) := [
  _check_about_page, _check_contact_page, _check_privacy_policy, _check_terms,
  _check_editorial_policy, _check_dates, _check_citations_count,
  _check_disclaimers, _check_disclosures, _check_schema]

-- Experience checks

open RE in
def FIRSTHAND_PATTERNS : List RE := [
  seqList [.bnd, altList [lits "i", lits "we"], wsPlus,
    altList [lits "tested", lits "tried", lits "used", lits "measured", lits "compared",
      lits "built", lits "installed", lits "configured"], .bnd],
  seqList [.bnd, altList [seqList [lits "in", wsPlus, lits "my"],
    seqList [lits "in", wsPlus, lits "our"]], wsPlus, lits "experience", .bnd],
  seqList [.bnd, lits "what", wsPlus,
    altList [lits "surprised", lits "failed", lits "worked", lits "broke"], .bnd],
  seqList [.bnd, lits "what", wsPlus, lits "i",
    altList [seqList [one (Char.ofNat 39), one 'd'], lits " would"],
    wsPlus, lits "do", wsPlus, lits "differently", .bnd],
  seqList [.bnd, lits "after", wsPlus, digitPlus, wsPlus,
    altList [optS "hour", optS "day", optS "week", optS "month", optS "year"],
    wsPlus, lits "of", wsPlus, altList [lits "using", lits "testing"], .bnd]]

open RE in
def PROCEDURAL_DETAIL_PATTERNS : List RE := [
  seqList [.bnd, lits "step", wsPlus, digit, .bnd],
  seqList [.bnd, altList [lits "first", lits "then", lits "next", lits "finally"],
    .opt (one ','), wsPlus, altList [lits "i", lits "we", lits "you"], .bnd],
  seqList [.bnd, altList [lits "setup", lits "configuration", lits "install"], wsPlus,
    altList [lits "took", lits "required", lits "involved"], .bnd]]

def _check_firsthand_language (c : ExtractedContent) : SignalEvidence :=
  let text := c.plain_text.data
  let hits := FIRSTHAND_PATTERNS.filterMap (fun pat =>
    (searchCI pat c.plain_text).map (fun q => sliceAround text q.1 q.2 30 30))
  _signal "First-hand experience language" (hits.length > 0)
    (min 4.0 ((hits.length : ℚ) * 1.0))
    (hits.head?.getD "") "Body text"
    "First-person procedural language signals real experience."

def _check_procedural_detail (c : ExtractedContent) : SignalEvidence :=
  let text := c.plain_text.data
  let found := PROCEDURAL_DETAIL_PATTERNS.filterMap (fun pat =>
    (searchCI pat c.plain_text).map (fun q => sliceAround text q.1 q.2 30 50))
  _signal "Procedural / step-by-step detail" (found.length > 0)
    (min 3.0 ((found.length : ℚ) * 1.0))
    (found.head?.getD "") ""
    "Step-by-step detail suggests the author has performed the process."

open RE in
def CAVEAT_PATTERNS : List RE := [
  seqList [.bnd, altList [lits "caveat", lits "downside", lits "limitation", lits "drawback",
    seqList [lits "trade", .opt anyChar, lits "off"]], .bnd],
  seqList [.bnd, altList [lits "however", lits "but", lits "on the other hand",
    lits "that said"], .bnd],
  seqList [.bnd, altList [
    seqList [lits "didn", one (Char.ofNat 39), lits "t work"],
    seqList [lits "wasn", one (Char.ofNat 39), lits "t ideal"],
    lits "could be better"], .bnd]]

def _check_caveats (c : ExtractedContent) : SignalEvidence :=
  let text := c.plain_text.data
  let found := CAVEAT_PATTERNS.filterMap (fun pat =>
    (searchCI pat c.plain_text).map (fun q => sliceAround text q.1 q.2 40 60))
  _signal "Real-world caveats and limitations" (found.length > 0)
    (min 3.0 ((found.length : ℚ) * 0.75))
    (found.head?.getD "") ""
    "Acknowledging limitations signals honest, real-world experience."

def _check_original_media (c : ExtractedContent) : SignalEvidence :=
  let count := c.images.length
  _signal "Original images / media" (count > 0) (min 3.0 ((count : ℚ) * 0.5))
    (toString count ++ " images found") ""
    "Original photos or screenshots support first-hand experience."

def EXPERIENCE_CHECKS : List (ExtractedContent → SignalEvidence) := [
  _check_firsthand_language, _check_procedural_detail, _check_caveats,
  _check_original_media]

-- Expertise checks

def LEGAL_TERMS : List String := [
  "statute", "regulation", "jurisdiction", "negligence", "liability",
  "comparative fault", "damages", "burden of proof", "discovery",
  "motion", "pleading", "tort", "breach", "fiduciary"]

def MEDICAL_TERMS : List String := [
  "diagnosis", "prognosis", "contraindication", "etiology",
  "pathology", "protocol", "clinical"]

def FINANCE_TERMS : List String := [
  "amortization", "fiduciary", "portfolio", "diversification",
  "yield", "liquidity", "collateral"]

def _check_terminology (c : ExtractedContent) : SignalEvidence :=
  let text := lowerData c.plain_text
  let hits := (LEGAL_TERMS ++ MEDICAL_TERMS ++ FINANCE_TERMS).filter
    (fun t => strContains text t.data)
  _signal "Domain-specific terminology" (hits.length ≥ 2)
    (min 4.0 ((hits.length : ℚ) * 0.5))
    (String.intercalate ", " (hits.take 8)) ""
    "Correct specialist terminology signals subject expertise."

open RE in
def SCOPE_PATTERNS : List RE := [
  seqList [.bnd, lits "this", wsPlus,
    altList [lits "applies", seqList [lits "is", wsPlus, lits "for"], lits "covers"], .bnd],
  seqList [.bnd, altList [lits "consult", seqList [lits "talk", wsPlus, lits "to"],
    seqList [lits "speak", wsPlus, lits "with"]], wsPlus,
    altList [lits "a", lits "an", lits "your"], wsPlus,
    altList [lits "attorney", lits "lawyer", lits "doctor", lits "advisor",
      lits "professional"], .bnd],
  seqList [.bnd, altList [seqList [lits "may", wsPlus, lits "not", wsPlus, lits "apply"],
    seqList [lits "varies", wsPlus, lits "by"],
    seqList [lits "depends", wsPlus, lits "on"]], .bnd],
  seqList [.bnd, altList [
    seqList [lits "in", wsPlus, .seq (.chr isWordChar) (.star isWordChar), wsPlus, lits "state"],
    seqList [lits "under", wsPlus, .seq (.chr isWordChar) (.star isWordChar), wsPlus, lits "law"]], .bnd],
  seqList [.bnd, altList [
    seqList [lits "who", wsPlus, lits "this", wsPlus, lits "is", wsPlus, lits "for"],
    seqList [lits "who", wsPlus, lits "should"]], .bnd]]

def _check_scope_limits (c : ExtractedContent) : SignalEvidence :=
  let text := c.plain_text.data
  let found := SCOPE_PATTERNS.filterMap (fun pat =>
    (searchCI pat c.plain_text).map (fun q => sliceAround text q.1 q.2 30 50))
  _signal "Proper scoping and pro referrals" (found.length ≥ 1)
    (min 4.0 ((found.length : ℚ) * 1.0))
    (found.head?.getD "") ""
    "Scoping advice to the right audience and referring to professionals when appropriate signals expertise."

def _check_depth (c : ExtractedContent) : SignalEvidence :=
  let wc := c.word_count
  let sec := c.sections.length
  let good_depth := wc ≥ 800 ∧ sec ≥ 3
  let great_depth := wc ≥ 1500 ∧ sec ≥ 5
  _signal "Content depth (word count + structure)" good_depth
    (if great_depth then 2.0 else if good_depth then 1.0 else 0.0)
    (toString wc ++ " words, " ++ toString sec ++ " sections") ""
    "Sufficient depth with clear structure shows topical command."

def _check_internal_consistency (_c : ExtractedContent) : SignalEvidence :=
  _signal "Internal consistency" true 1.5
    "" ""
    "No obvious contradictions detected (deep check deferred to AI rater)."

def EXPERTISE_CHECKS : List (ExtractedContent → SignalEvidence) := [
  _check_terminology, _check_scope_limits, _check_depth, _check_internal_consistency]

-- Authoritativeness checks

def _check_author_present (c : ExtractedContent) : SignalEvidence :=
  _signal "Author name present" (truthyS c.author.name) 2.0
    (c.author.name.getD "") ""
    "Named authorship establishes accountability."

def _check_author_bio (c : ExtractedContent) : SignalEvidence :=
  _signal "Author bio with credentials" (truthyS c.author.bio) 3.0
    (String.mk ((c.author.bio.getD "").data.take 200)) ""
    "A bio with relevant background signals authority on the topic."

def _check_author_page (c : ExtractedContent) : SignalEvidence :=
  _signal "Dedicated author page" c.author.has_author_page 2.5
    (c.author.profile_url.getD "") ""
    "A dedicated author page lets readers verify credentials."

def _check_credentials (c : ExtractedContent) : SignalEvidence :=
  _signal "Professional credentials listed" (truthyS c.author.credentials) 3.0
    (c.author.credentials.getD "") ""
    "Explicit credentials (bar admissions, degrees, certifications) strengthen authority."

def _check_internal_linking (c : ExtractedContent) : SignalEvidence :=
  let count := c.internal_links.length
  _signal "Internal linking depth" (count ≥ 3) (min 3.0 ((count : ℚ) * 0.3))
    (toString count ++ " internal links") ""
    "Strong internal linking to related content shows topical ownership."

def _check_attorney_roster (c : ExtractedContent) : SignalEvidence :=
  _signal "Attorney roster / team page" c.site_signals.has_attorney_roster 2.0
    "" ""
    "An attorney roster with profile pages establishes firm credibility."

def AUTHORITATIVENESS_CHECKS : List (ExtractedContent → SignalEvidence) := [
  _check_author_present, _check_author_bio, _check_author_page, _check_credentials,
  _check_internal_linking, _check_attorney_roster]

/-- The four dimension scores returned (as a dict) by `run_rules_engine`. -/
structure DimScores where
  experience : DimensionScore
  expertise : DimensionScore
  authoritativeness : DimensionScore
  trust : DimensionScore
  deriving DecidableEq, Repr

/-- `_run_checks` inside `run_rules_engine`: run a check battery and
normalize the summed raw points to the 0–25 scale. -/
def _run_checks (checks : List (ExtractedContent → SignalEvidence))
    (content : ExtractedContent) (name : String) (max_pts : ℚ) : DimensionScore :=
  let signals := checks.map (fun check => check content)
  let raw := (signals.map (fun s => s.points)).sum
  let score := if max_pts > 0 then min 25.0 ((raw / max_pts) * 25.0) else 0.0
  { name := name, score := round1 score, signals := signals }

/-- `run_rules_engine`: all deterministic checks (the `ymyl_risk` and
`preset` arguments of the source are unused by it). -/
def run_rules_engine (content : ExtractedContent) : DimScores :=
  { trust := _run_checks TRUST_CHECKS content "Trust" 18.0
    experience := _run_checks EXPERIENCE_CHECKS content "Experience" 13.0
    expertise := _run_checks EXPERTISE_CHECKS content "Expertise" 12.0
    authoritativeness :=
      _run_checks AUTHORITATIVENESS_CHECKS content "Authoritativeness" 15.5 }

-- ═══════════════════════════════════════════════════════════════════════════
-- Advisory model rater response parsing (app/scoring/model_rater.py)
-- ═══════════════════════════════════════════════════════════════════════════

/-- One signal object of a service response, after the `dict.get` defaults
of `_parse_model_response` (`signal` defaults to `""`, `found` to `False`,
`points` to `0`, `quote` and `explanation` to `""`). -/
structure RaterSignal where
  signal : String := ""
  found : Bool := false
  points : ℚ := 0
  quote : String := ""
  explanation : String := ""
  deriving DecidableEq, Repr

/-- One dimension block of a service response (missing blocks give the
defaults). -/
structure RaterDim where
  signals : List RaterSignal := []
  summary : String := ""
  deriving DecidableEq, Repr

/-- A parsed service response keyed by the four dimension names. -/
structure RaterResponse where
  experience : RaterDim := {}
  expertise : RaterDim := {}
  authoritativeness : RaterDim := {}
  trust : RaterDim := {}
  deriving DecidableEq, Repr

/-- The per-dimension conversion inside `_parse_model_response`. -/
def parseRaterDim (name : String) (block : RaterDim) : DimensionScore :=
  let signals := block.signals.map (fun s =>
    { signal := s.signal
      found := s.found
      points := min 4.0 s.points
      quote := String.mk (s.quote.data.take 300)
      explanation := s.explanation : SignalEvidence })
  let raw_pts := (signals.map (fun s => s.points)).sum
  let max_possible : ℚ := if !signals.isEmpty then (signals.length : ℚ) * 4.0 else 1.0
  let score := if max_possible > 0 then min 25.0 ((raw_pts / max_possible) * 25.0) else 0.0
  { name := name, score := round1 score, signals := signals, summary := block.summary }

/-- `_parse_model_response`: normalize a service response into dimension
scores. -/
def _parse_model_response (data : RaterResponse) : DimScores :=
  { experience := parseRaterDim "Experience" data.experience
    expertise := parseRaterDim "Expertise" data.expertise
    authoritativeness := parseRaterDim "Authoritativeness" data.authoritativeness
    trust := parseRaterDim "Trust" data.trust }

-- ═══════════════════════════════════════════════════════════════════════════
-- Preset configurations (app/scoring/presets.py)
-- ═══════════════════════════════════════════════════════════════════════════

structure PresetConfig where
  experience_weight : ℚ := 15.0
  expertise_weight : ℚ := 25.0
  authoritativeness_weight : ℚ := 20.0
  trust_weight : ℚ := 40.0
  required_signals : List String := []
  label : String := "General"
  deriving DecidableEq, Repr

/-- `PRESET_CONFIGS` / `get_preset_config` (every enum member has an
entry, so the `.get` fallback to GENERAL never fires). -/
def get_preset_config : ContentPreset → PresetConfig
  | .general =>
      { experience_weight := 20.0, expertise_weight := 25.0,
        authoritativeness_weight := 25.0, trust_weight := 30.0,
        label := "General content" }
  | .legal_practice_area =>
      { experience_weight := 15.0, expertise_weight := 25.0,
        authoritativeness_weight := 20.0, trust_weight := 40.0,
        required_signals := [
          "Disclaimer / legal notice present",
          "Author bio with credentials",
          "Professional credentials listed",
          "Dates shown (published / updated)",
          "Outbound citation count and quality",
          "Proper scoping and pro referrals"],
        label := "Legal — Practice Area Page" }
  | .legal_location =>
      { experience_weight := 10.0, expertise_weight := 25.0,
        authoritativeness_weight := 25.0, trust_weight := 40.0,
        required_signals := [
          "Disclaimer / legal notice present",
          "Contact information present",
          "Author bio with credentials"],
        label := "Legal — Location Page" }
  | .legal_faq =>
      { experience_weight := 10.0, expertise_weight := 30.0,
        authoritativeness_weight := 20.0, trust_weight := 40.0,
        required_signals := [
          "Disclaimer / legal notice present",
          "Proper scoping and pro referrals",
          "Dates shown (published / updated)"],
        label := "Legal — FAQ" }
  | .legal_guide =>
      { experience_weight := 15.0, expertise_weight := 25.0,
        authoritativeness_weight := 20.0, trust_weight := 40.0,
        required_signals := [
          "Disclaimer / legal notice present",
          "Outbound citation count and quality",
          "Author bio with credentials",
          "Dates shown (published / updated)",
          "Proper scoping and pro referrals"],
        label := "Legal — Long Guide" }
  | .legal_case_results =>
      { experience_weight := 10.0, expertise_weight := 20.0,
        authoritativeness_weight := 25.0, trust_weight := 45.0,
        required_signals := [
          "Disclaimer / legal notice present",
          "Author bio with credentials"],
        label := "Legal — Case Results / Testimonials" }
  | .medical =>
      { experience_weight := 15.0, expertise_weight := 30.0,
        authoritativeness_weight := 15.0, trust_weight := 40.0,
        required_signals := [
          "Author bio with credentials",
          "Outbound citation count and quality",
          "Dates shown (published / updated)",
          "Proper scoping and pro referrals"],
        label := "Medical content" }
  | .finance =>
      { experience_weight := 15.0, expertise_weight := 30.0,
        authoritativeness_weight := 20.0, trust_weight := 35.0,
        required_signals := [
          "Author bio with credentials",
          "Outbound citation count and quality",
          "Dates shown (published / updated)"],
        label := "Financial content" }
  | .product_review =>
      { experience_weight := 35.0, expertise_weight := 20.0,
        authoritativeness_weight := 15.0, trust_weight := 30.0,
        required_signals := [
          "First-hand experience language",
          "Original images / media",
          "Affiliate / advertising disclosure"],
        label := "Product Review" }
  | .diy_tutorial =>
      { experience_weight := 35.0, expertise_weight := 25.0,
        authoritativeness_weight := 10.0, trust_weight := 30.0,
        required_signals := [
          "First-hand experience language",
          "Procedural / step-by-step detail",
          "Original images / media"],
        label := "DIY Tutorial" }

-- ═══════════════════════════════════════════════════════════════════════════
-- Score merging (app/scoring/scorer.py)
-- ═══════════════════════════════════════════════════════════════════════════

/-- The per-dimension blend inside `_merge_dimensions`. -/
def blendDim (name : String) (r m : DimensionScore) (rules_weight : ℚ) : DimensionScore :=
  { name := name
    score := round1 (r.score * rules_weight + m.score * (1 - rules_weight))
    signals := r.signals ++ m.signals
    summary := if m.summary ≠ "" then m.summary else r.summary }

/-- `_merge_dimensions`: blend rules-engine and model-rater scores; when the
model rater is unavailable (`None`) the rule scores are returned unchanged. -/
def _merge_dimensions (rules : DimScores) (model : Option DimScores)
    (rules_weight : ℚ := 0.6) : DimScores :=
  match model with
  | none => rules
  | some m =>
      { experience := blendDim "Experience" rules.experience m.experience rules_weight
        expertise := blendDim "Expertise" rules.expertise m.expertise rules_weight
        authoritativeness :=
          blendDim "Authoritativeness" rules.authoritativeness m.authoritativeness rules_weight
        trust := blendDim "Trust" rules.trust m.trust rules_weight }

/-- `_compute_overall`: preset-weighted overall score on the 0–100 scale. -/
def _compute_overall (dims : DimScores) (preset : ContentPreset) : ℚ :=
  let config := get_preset_config preset
  let weighted :=
    dims.experience.score * (config.experience_weight / 25.0)
    + dims.expertise.score * (config.expertise_weight / 25.0)
    + dims.authoritativeness.score * (config.authoritativeness_weight / 25.0)
    + dims.trust.score * (config.trust_weight / 25.0)
  round1 (min 100.0 (max 0.0 weighted))

-- ═══════════════════════════════════════════════════════════════════════════
-- Rule 7.1 compliance scanner (app/analysis/compliance.py)
-- ═══════════════════════════════════════════════════════════════════════════

/-- One entry of `RULE_71_PATTERNS`:
(pattern, severity, rule reference, explanation, suggested fix). -/
structure Rule71Pattern where
  pattern : RE
  severity : String
  rule : String
  explanation : String
  fix : String

open RE in
/-- The first entry of `RULE_71_PATTERNS`: the guarantee-language pattern. -/
def RULE1 : Rule71Pattern :=
  { pattern := seqList [.bnd, .opt (.seq (lits "we") wsPlus), lits "guarantee",
      .opt (.chr (fun c => c = 'd' ∨ c = 's')), .bnd]
    severity := "high"
    rule := "Rule 7.1(a)"
    explanation := "Guarantee language about legal outcomes is misleading. No attorney can guarantee results."
    fix := "Remove \"guarantee\" or replace with \"we work to achieve the best possible outcome.\"" }

open RE in
/-- `RULE_71_PATTERNS`, in source order (the guarantee pattern first). -/
def RULE_71_PATTERNS : List Rule71Pattern := [
  RULE1,
  { pattern := seqList [.bnd,
      altList [lits "best", lits "top", seqList [one '#', wsStar, one '1'],
        seqList [lits "number", wsStar, lits "one"], lits "premier", lits "leading"],
      wsPlus,
      altList [lits "lawyer", lits "attorney", lits "firm",
        seqList [lits "law", wsStar, lits "firm"]], .bnd]
    severity := "high"
    rule := "Rule 7.1(a)"
    explanation := "Superlative claims about legal services require substantiation and can mislead potential clients."
    fix := "Add substantiation (e.g., award name, ranking source) or soften to \"experienced\" / \"dedicated.\"" },
  { pattern := seqList [.bnd, altList [lits "expert", lits "specialist"], wsPlus,
      altList [lits "in", lits "at", lits "on"], .bnd]
    severity := "medium"
    rule := "Rule 7.1(a)"
    explanation := "\"Expert\" or \"specialist\" claims may be misleading unless supported by board certification or recognized specialization."
    fix := "Replace with specific credentials or use \"experienced in\" / \"focused on\" instead." },
  { pattern := seqList [one '$',
      .seq (.chr (fun c => isDigitChar c ∨ c = ',')) (.star (fun c => isDigitChar c ∨ c = ',')),
      .opt (.seq (one '.') digitPlus), wsStar,
      altList [lits "million", lits "thousand", lits "settlement", lits "verdict"]]
    severity := "high"
    rule := "Rule 7.1(b)"
    explanation := "Specific dollar amounts for case results can mislead if presented without a disclaimer that results vary."
    fix := "Add: \"Past results do not guarantee future outcomes. Every case is different.\"" },
  { pattern := seqList [.bnd, altList [
      seqList [lits "no", wsPlus, lits "fee"],
      seqList [lits "free", wsPlus, lits "consult"],
      seqList [lits "free", wsPlus, lits "case", wsPlus, lits "review"],
      seqList [lits "no", wsPlus, lits "cost"],
      seqList [lits "pay", wsPlus, lits "nothing"]], .bnd]
    severity := "medium"
    rule := "Rule 7.1(b)"
    explanation := "\"No fee\" claims need conditions stated: contingency basis, costs vs. fees, what\x27s actually free."
    fix := "Add conditions: \"No attorney fee unless we recover compensation. Client may be responsible for case costs.\"" },
  { pattern := seqList [.bnd, lits "you", wsPlus,
      altList [lits "will", seqList [lits "are", wsPlus, lits "going", wsPlus, lits "to"]],
      wsPlus,
      altList [lits "win", lits "recover", lits "get", lits "receive", lits "obtain"], .bnd]
    severity := "high"
    rule := "Rule 7.1(a)"
    explanation := "Promising specific outcomes is misleading. Outcomes depend on facts and law."
    fix := "Replace with \"you may be entitled to\" or \"we will pursue the maximum recovery available.\"" },
  { pattern := seqList [.bnd, altList [lits "always", lits "never"], wsPlus,
      altList [lits "win", lits "lose", lits "recover", lits "get", lits "result",
        lits "succeed"], .bnd]
    severity := "high"
    rule := "Rule 7.1(a)"
    explanation := "Absolute outcome language is inherently misleading in legal contexts."
    fix := "Replace with conditional language that acknowledges case-specific factors." },
  { pattern := seqList [.bnd, altList [
      seqList [lits "client", wsPlus, lits "review"],
      lits "testimonial",
      seqList [lits "what", wsPlus, lits "our", wsPlus, lits "clients", wsPlus, lits "say"]],
      .bnd]
    severity := "medium"
    rule := "Rule 7.1(b)"
    explanation := "Client testimonials may create unjustified expectations about results. Many jurisdictions require disclaimers."
    fix := "Add: \"Client testimonials reflect individual experiences and do not guarantee similar outcomes.\"" },
  { pattern := seqList [.bnd, altList [
      seqList [optS "connection", wsPlus, altList [lits "to", lits "with"], wsPlus,
        .opt (.seq (lits "the") wsPlus), altList [lits "court", lits "judge"]],
      seqList [lits "inside", wsPlus, lits "knowledge"]], .bnd]
    severity := "high"
    rule := "Rule 7.1(a) / Rule 8.4"
    explanation := "Implying special influence with courts or judges is misleading and may violate ethics rules."
    fix := "Remove any language implying special access or influence." }]

/-- The flag generated by `scan_compliance` for one pattern-table entry `p`
matched at span `q` (offsets into the section text); the flag carries ±50
characters of context around the match. -/
def flagOf (p : Rule71Pattern) (sec : ContentSection) (q : Nat × Nat) :
    ComplianceFlag :=
  let text := sec.text.data
  let heading := if !sec.heading.isEmpty then sec.heading
    else "Section " ++ toString (sec.index + 1)
  let context_start := q.1 - 50
  let context_end := min text.length (q.2 + 50)
  let context :=
    "..." ++ String.mk ((text.drop context_start).take (context_end - context_start)) ++ "..."
  { rule := p.rule
    severity := p.severity
    text := String.mk (stripChars context.data)
    location := heading
    explanation := p.explanation
    fix := p.fix }

/-- The context window of characters a flag at span `q` carries: the section
text from 50 characters before the match start to 50 after the match end. -/
def windowOf (sec : ContentSection) (q : Nat × Nat) : List Char :=
  (sec.text.data.drop (q.1 - 50)).take
    (min sec.text.data.length (q.2 + 50) - (q.1 - 50))

/-- The lower-cased guarantee phrase tracked through the C8 argument. -/
def wgPat : List Char := "we guarantee ".data

/-- The flags generated for one section by `scan_compliance`, patterns in
table order. -/
def sectionComplianceFlags (sec : ContentSection) : List ComplianceFlag :=
  RULE_71_PATTERNS.flatMap (fun p =>
    (finditer p.pattern (lowerData sec.text)).map (flagOf p sec))

/-- The dedup key of a compliance flag: the first 80 characters of its
context string. -/
def flagKey (f : ComplianceFlag) : List Char := f.text.data.take 80

/-- Deduplication by context key, preserving first-seen order. -/
def dedupFlagsAux (seen : List (List Char)) : List ComplianceFlag → List ComplianceFlag
  | [] => []
  | f :: rest =>
      if flagKey f ∈ seen then dedupFlagsAux seen rest
      else f :: dedupFlagsAux (flagKey f :: seen) rest

/-- `scan_compliance`: scan all sections against the Rule 7.1 pattern table
and deduplicate by the first 80 characters of the context string. -/
def scan_compliance (content : ExtractedContent) : List ComplianceFlag :=
  dedupFlagsAux [] (content.sections.flatMap sectionComplianceFlags)

-- ═══════════════════════════════════════════════════════════════════════════
-- Recommendation engine (app/recommendations/engine.py)
-- ═══════════════════════════════════════════════════════════════════════════

def _attorney_review_block : String :=
  "Reviewed by [Attorney Name], [Title]. Licensed in [State]. Last reviewed on [Date]."

def _scope_jurisdiction_block : String :=
  "This page covers general legal information in [State]. Rules can change by county, court, and the specific facts of your case."

def _no_legal_advice_block : String :=
  "This information is not legal advice and does not create an attorney-client relationship. Talk with a lawyer about your specific facts."

def _sources_block : String :=
  "Sources: [State statute link], [court rule link], [agency guidance link]"

def _how_we_built_block : String :=
  "We built this guide from current statutes and court rules, plus our case intake patterns. We update it when deadlines or rules change."

def _editorial_note_block : String :=
  "Editorially reviewed by [Reviewer Name]. Last reviewed on [Date]. We follow our editorial guidelines for accuracy."

def _author_bio_block : String :=
  "[Author Name] is a [Title/Role] with [X years] of experience in [practice area / specialty]. [He/She/They] [is/are] licensed in [State] and [has/have] handled [area of work]. Contact: [email / phone]."

def _corrections_policy_block : String :=
  "We take accuracy seriously. If you see an error, please contact us at [email]. We review and correct reported inaccuracies within [X] business days."

def _how_we_tested_block : String :=
  "How we tested: We [tested/reviewed/evaluated] [X products/services] over [time period]. We [describe methodology]. Our evaluation criteria included [criteria list]."

def _who_this_is_for_block : String :=
  "Who this is for: This guide is designed for [target audience]. If you [specific condition], you should consult a [professional type] instead."

/-- The template table of `_signal_to_recommendation`, keyed by signal name:
(title, why-it-matters, copy block, effort, impact, points potential,
fix scope). -/
def templateFor (signal_name : String) (is_legal : Bool) :
    Option (String × String × String × EffortLevel × ImpactLevel × ℚ × FixScope) :=
  match signal_name with
  | "Disclaimer / legal notice present" => some
      ("Add a legal disclaimer",
       "Legal content without disclaimers can mislead readers and create liability risk.",
       _no_legal_advice_block, .easy, .high, 4.0, .page_level)
  | "About page linked" => some
      ("Add or link an About page",
       "An About page establishes site identity and ownership — a baseline trust signal.",
       "", .moderate, .high, 3.0, .new_page)
  | "Contact information present" => some
      ("Add visible contact information",
       "Readers and raters look for real contact paths (phone, email, address) to verify legitimacy.",
       "", .easy, .high, 3.0, .global_fix)
  | "Privacy policy linked" => some
      ("Add a privacy policy link",
       "A privacy policy is a baseline expectation for any professional website.",
       "", .easy, .medium, 1.5, .global_fix)
  | "Terms of service linked" => some
      ("Add terms of service link",
       "Terms of service clarify the site-user relationship.",
       "", .easy, .low, 1.0, .global_fix)
  | "Editorial / review policy" => some
      ("Add an editorial policy page",
       "An editorial policy shows content goes through a review process, boosting Trust.",
       _editorial_note_block, .moderate, .high, 3.5, .new_page)
  | "Dates shown (published / updated)" => some
      ("Add publish and update dates",
       "Visible dates let readers judge freshness. Undated content looks unmaintained.",
       "Published: [Date] | Last updated: [Date]", .easy, .high, 3.0, .page_level)
  | "Outbound citation count and quality" => some
      ("Add authoritative citations to support claims",
       "Unsupported claims weaken trust. Link to statutes, regulations, .gov/.edu sources.",
       (if is_legal then _sources_block
        else "Sources: [primary source link], [authoritative source link]"),
       .moderate, .high, 4.0, .page_level)
  | "Affiliate / advertising disclosure" => some
      ("Add an affiliate / advertising disclosure",
       "FTC guidelines require disclosure when content is monetized through affiliate links or sponsorship.",
       "Disclosure: This page may contain affiliate links. We may earn a commission at no extra cost to you.",
       .easy, .medium, 2.0, .page_level)
  | "Structured data (schema.org)" => some
      ("Add schema.org structured data",
       "Structured data helps search engines understand page purpose and display rich results.",
       "", .moderate, .medium, 2.0, .global_fix)
  | "First-hand experience language" => some
      ("Add first-hand experience details",
       "Content reads as generic advice. Add specific details about what you tested, tried, or observed.",
       _how_we_tested_block, .moderate, .high, 3.5, .page_level)
  | "Procedural / step-by-step detail" => some
      ("Add step-by-step procedural detail",
       "Readers trust content that walks them through real steps, not just theory.",
       "", .moderate, .medium, 2.5, .page_level)
  | "Real-world caveats and limitations" => some
      ("Add caveats and honest limitations",
       "Content that acknowledges trade-offs and limitations reads as more credible.",
       "", .easy, .medium, 2.0, .page_level)
  | "Original images / media" => some
      ("Add original images or screenshots",
       "Original visuals support experience claims and increase engagement.",
       "", .moderate, .medium, 2.0, .page_level)
  | "Domain-specific terminology" => some
      ("Use more precise domain terminology",
       "Generic language makes content look like it was written by a non-expert.",
       "", .easy, .medium, 2.0, .page_level)
  | "Proper scoping and pro referrals" => some
      ("Add audience scoping and professional referrals",
       "Tell readers who this is for and when to consult a professional. Critical for YMYL topics.",
       (if !is_legal then _who_this_is_for_block
        else _scope_jurisdiction_block ++ "\n\n" ++ _no_legal_advice_block),
       .easy, .high, 4.0, .page_level)
  | "Content depth (word count + structure)" => some
      ("Deepen the content with more sections",
       "The page is thin. Add sections that address edge cases, exceptions, and practical details.",
       "", .heavy, .medium, 2.5, .page_level)
  | "Author name present" => some
      ("Add a visible author name",
       "Anonymous content on sensitive topics is a major trust red flag.",
       "", .easy, .high, 3.0, .page_level)
  | "Author bio with credentials" => some
      ("Add an author bio with relevant credentials",
       "A bio with specific, relevant background signals that the author is qualified to write this.",
       _author_bio_block, .easy, .high, 4.0, .page_level)
  | "Dedicated author page" => some
      ("Create a dedicated author profile page",
       "A standalone author page lets readers (and Google) verify the author\x27s identity and expertise.",
       "", .moderate, .high, 3.5, .new_page)
  | "Professional credentials listed" => some
      ("List professional credentials explicitly",
       "Credentials like bar admissions, licenses, and certifications should be stated clearly.",
       "[Author Name], Esq. — Licensed in [State], [Bar Number]. [X] years practicing [area].",
       .easy, .high, 4.0, .page_level)
  | "Internal linking depth" => some
      ("Add more internal links to related content",
       "Strong internal linking demonstrates topical coverage depth and helps readers navigate related guides.",
       "", .easy, .medium, 2.0, .page_level)
  | "Attorney roster / team page" => some
      ("Add or link an attorney team page",
       "A team page with attorney profiles establishes firm credibility and lets readers verify qualifications.",
       "", .moderate, .high, 3.0, .new_page)
  | _ => none

/-- `_signal_to_recommendation`: map a missing signal name to a concrete
recommendation (unknown signal names yield none). -/
def _signal_to_recommendation (signal_name dimension : String) (is_legal : Bool)
    (_content : ExtractedContent) : Option Recommendation :=
  (templateFor signal_name is_legal).map (fun t =>
    { title := t.1
      what_to_change := t.1
      why_it_matters := t.2.1
      rec_where := if containsCI signal_name "page" || containsCI signal_name "policy"
        then "Page-level" else "Content body"
      copy_block := t.2.2.1
      effort := t.2.2.2.1
      impact := t.2.2.2.2.1
      dimension := dimension
      points_potential := t.2.2.2.2.2.1
      scope := t.2.2.2.2.2.2 })

/-- `_recs_from_missing_signals`: one recommendation for every not-found
signal with a known template; required signals of the preset get impact
forced to HIGH and a fixed 2-point bonus. -/
def _recs_from_missing_signals (score : EEATScore) (content : ExtractedContent)
    (preset : ContentPreset) : List Recommendation :=
  let config := get_preset_config preset
  let is_legal := startsWithB (presetValue preset) "legal"
  ([("Trust", score.trust), ("Experience", score.experience),
    ("Expertise", score.expertise),
    ("Authoritativeness", score.authoritativeness)]).flatMap (fun dim =>
    dim.2.signals.flatMap (fun sig =>
      if sig.found then []
      else
        match _signal_to_recommendation sig.signal dim.1 is_legal content with
        | none => []
        | some rec =>
            if sig.signal ∈ config.required_signals then
              [{ rec with
                  impact := ImpactLevel.high
                  points_potential := rec.points_potential + 2.0 }]
            else [rec]))

/-- `_recs_from_claims`: up to three grouped recommendations from the
citation audit. -/
def _recs_from_claims (audit : CitationAudit) (_is_legal : Bool) : List Recommendation :=
  let unsupported := audit.claims.filter (fun c => c.evidence_grade = .unsupported)
  let weak := audit.claims.filter (fun c => c.evidence_grade = .weakly_supported)
  let overbroad := audit.claims.filter (fun c => c.evidence_grade = .needs_qualification)
  (if !unsupported.isEmpty then
    [{ title := "Add sources for " ++ toString unsupported.length ++ " unsupported claim(s)"
       what_to_change := "Add credible citations near these claims"
       why_it_matters := "Unsupported claims weaken trust, especially on YMYL topics."
       rec_where := "Multiple sections"
       copy_block := "Claims needing sources:\n" ++ String.intercalate "\n"
         ((unsupported.take 5).map (fun c =>
           "- \"" ++ String.mk (c.text.data.take 120) ++ "\""))
       effort := .moderate
       impact := .high
       dimension := "Trust"
       points_potential := min 5.0 ((unsupported.length : ℚ) * 1.0)
       scope := .page_level : Recommendation }]
   else []) ++
  (if !weak.isEmpty then
    [{ title := "Upgrade " ++ toString weak.length ++ " weak citation(s)"
       what_to_change := "Replace blog/forum sources with primary or institutional sources"
       why_it_matters := "Low-authority sources don\x27t support sensitive claims."
       rec_where := "Multiple sections"
       copy_block := "Replace sources from: "
         ++ String.intercalate ", " (audit.low_trust_sources.take 5)
       effort := .moderate
       impact := .medium
       dimension := "Trust"
       points_potential := min 3.0 ((weak.length : ℚ) * 0.5)
       scope := .page_level : Recommendation }]
   else []) ++
  (if !overbroad.isEmpty then
    [{ title := "Qualify " ++ toString overbroad.length ++ " overbroad claim(s)"
       what_to_change := "Replace absolute language with scoped, conditional statements"
       why_it_matters := "Overbroad claims reduce credibility and can mislead readers."
       rec_where := "Multiple sections"
       copy_block := "Claims to qualify:\n" ++ String.intercalate "\n"
         ((overbroad.take 5).map (fun c =>
           "- \"" ++ String.mk (c.text.data.take 120) ++ "\""))
         ++ "\n\nReplace \x27always\x27 / \x27never\x27 / \x27guaranteed\x27 with conditional language."
       effort := .easy
       impact := .high
       dimension := "Trust"
       points_potential := min 4.0 ((overbroad.length : ℚ) * 1.0)
       scope := .page_level : Recommendation }]
   else [])

/-- `_recs_from_compliance`: one recommendation per compliance flag. -/
def _recs_from_compliance (flags : List ComplianceFlag) : List Recommendation :=
  flags.map (fun flag =>
    { title := "Fix " ++ flag.rule ++ " issue: " ++ String.mk (flag.explanation.data.take 60)
      what_to_change := flag.explanation
      why_it_matters := "Violates " ++ flag.rule
        ++ ". This can create misleading impressions and pose ethical/legal risk."
      rec_where := flag.location
      copy_block := flag.fix
      effort := .easy
      impact := if flag.severity = "high" then .high else .medium
      dimension := "Trust"
      points_potential := if flag.severity = "high" then 3.0 else 1.5
      scope := .page_level })

/-- `_recs_for_legal_extras`: the two conditional legal-preset extras.  Note
the methodology check tests for the substring "how we", not the full phrase
"how we built this". -/
def _recs_for_legal_extras (content : ExtractedContent) (_score : EEATScore) :
    List Recommendation :=
  (if !truthyS content.dates.reviewed then
    [{ title := "Add attorney review line"
       what_to_change := "Add a \x27Reviewed by [Attorney]\x27 line with date"
       why_it_matters := "Attorney review signals editorial oversight — a top trust signal for legal content."
       rec_where := "Below the title or at the end of the article"
       copy_block := _attorney_review_block
       effort := .easy
       impact := .high
       dimension := "Trust"
       points_potential := 4.0
       scope := .page_level : Recommendation }]
   else []) ++
  (if !(content.sections.any (fun s => strContains (lowerData s.text) "how we".data)) then
    [{ title := "Add \"How we built this guide\" section"
       what_to_change := "Explain the research methodology"
       why_it_matters := "Transparency about research process builds trust with readers and raters."
       rec_where := "End of article, before sources"
       copy_block := _how_we_built_block
       effort := .easy
       impact := .medium
       dimension := "Experience"
       points_potential := 2.5
       scope := .page_level : Recommendation }]
   else [])

/-- Deduplication of recommendations by title, first occurrence kept. -/
def dedupRecsAux (seen : List String) : List Recommendation → List Recommendation
  | [] => []
  | r :: rest =>
      if r.title ∈ seen then dedupRecsAux seen rest
      else r :: dedupRecsAux (r.title :: seen) rest

/-- `impact_order` lookup with default 2. -/
def impactRank : ImpactLevel → Nat
  | .high => 0
  | .medium => 1
  | .low => 2

/-- Strict comparison on the Python sort key
`(impact_order[impact], -points_potential)`. -/
def recKeyLt (a b : Recommendation) : Bool :=
  impactRank a.impact < impactRank b.impact
    || (impactRank a.impact = impactRank b.impact
        && b.points_potential < a.points_potential)

/-- Insertion step for the recommendation sort, using the strict key
comparison: the new element lands after any run of equal keys.  (Python
`list.sort` is stable, so runs of equal `(impact, points_potential)` keys
come out of this model in reversed relative order; every property proved
below is insensitive to the order within such runs.) -/
def insertRec (a : Recommendation) : List Recommendation → List Recommendation
  | [] => [a]
  | b :: l => if recKeyLt a b then a :: b :: l else b :: insertRec a l

/-- Insertion sort by `(impact rank, -points_potential)` (order within
runs of equal keys is not preserved; see `insertRec`). -/
def sortRecs : List Recommendation → List Recommendation
  | [] => []
  | a :: l => insertRec a (sortRecs l)

/-- `generate_recommendations`: gather all generators, deduplicate by title,
then sort HIGH impact first and by points potential descending within a
tier. -/
def generate_recommendations (score : EEATScore) (content : ExtractedContent)
    (audit : CitationAudit) (preset : ContentPreset) (_ymyl_risk : YMYLRisk) :
    List Recommendation :=
  let is_legal := startsWithB (presetValue preset) "legal"
  let recs := _recs_from_missing_signals score content preset
    ++ _recs_from_claims audit is_legal
    ++ _recs_from_compliance score.compliance_flags
    ++ (if is_legal then _recs_for_legal_extras content score else [])
  sortRecs (dedupRecsAux [] recs)

/-- The ranking contract of the recommendation sort: impact rank never
decreases, and within an equal impact tier the points potential never
increases. -/
def recOrder (a b : Recommendation) : Prop :=
  impactRank a.impact < impactRank b.impact
    ∨ (impactRank a.impact = impactRank b.impact
        ∧ b.points_potential ≤ a.points_potential)

/-- The 22 recommendation titles of the `_signal_to_recommendation`
template table. -/
def TEMPLATE_TITLES : List String := [
  "Add a legal disclaimer", "Add or link an About page",
  "Add visible contact information", "Add a privacy policy link",
  "Add terms of service link", "Add an editorial policy page",
  "Add publish and update dates", "Add authoritative citations to support claims",
  "Add an affiliate / advertising disclosure", "Add schema.org structured data",
  "Add first-hand experience details", "Add step-by-step procedural detail",
  "Add caveats and honest limitations", "Add original images or screenshots",
  "Use more precise domain terminology",
  "Add audience scoping and professional referrals",
  "Deepen the content with more sections", "Add a visible author name",
  "Add an author bio with relevant credentials",
  "Create a dedicated author profile page",
  "List professional credentials explicitly",
  "Add more internal links to related content",
  "Add or link an attorney team page"]

-- ═══════════════════════════════════════════════════════════════════════════
-- Concrete inputs used by witnesses and counterexamples
-- ═══════════════════════════════════════════════════════════════════════════

/-- C1 test content, no links: one section holding exactly the spec
sentence. -/
def c1ContentNoLinks : ExtractedContent :=
  { sections := [{
      heading := "Compensation"
      index := 0
      text := "Studies show that you will always recover full compensation." }] }

/-- C1 test content with a cdc.gov link associated to the section. -/
def c1ContentCdc : ExtractedContent :=
  { sections := [{
      heading := "Compensation"
      index := 0
      text := "Studies show that you will always recover full compensation." }]
    outbound_links := [{
      url := "https://www.cdc.gov/stats"
      anchor_text := "compensation"
      domain := "cdc.gov" }] }

/-- C5 witness content: a statistic claim with overbroad language. -/
def c5Content : ExtractedContent :=
  { sections := [{
      heading := "Deposits"
      index := 0
      text := "Studies show you never lose your deposit in these cases." }] }

/-- C7 test content: a statistic sentence whose section is associated with
one forum link. -/
def c7Content : ExtractedContent :=
  { sections := [{
      heading := "Rates"
      index := 0
      text := "According to a 2022 study, recovery rates average 40%." }]
    outbound_links := [{
      url := "https://forum.example.com/thread/123"
      anchor_text := "recovery rates"
      domain := "forum.example.com" }] }

/-- C8 witness content: one section holding the spec phrase. -/
def c8Content : ExtractedContent :=
  { sections := [{
      heading := "Results"
      index := 0
      text := "We guarantee you will win your case" }] }

/-- C2 counterexample response: a not-found signal carrying 3 points. -/
def c2Response : RaterResponse :=
  { trust := { signals := [{
      signal := "Sensitive claims handled carefully"
      found := false
      points := 3 }] } }

/-- C4 counterexample response: a signal with negative points. -/
def c4Response : RaterResponse :=
  { trust := { signals := [{
      signal := "Sensitive claims handled carefully"
      found := true
      points := -4 }] } }

/-- C4 counterexample content: empty extracted content, whose rules-engine
trust score is zero (every trust check reports found = false). -/
def c4Content : ExtractedContent := {}

/-- C9 counterexample content: a legal page whose only section contains
"how we work" (so the substring "how we" occurs) but not the phrase
"how we built this"; the reviewed date is present so no attorney extra is
generated either. -/
def c9CexContent : ExtractedContent :=
  { sections := [{
      heading := "About us"
      index := 0
      text := "This is how we work with clients every day." }]
    dates := { reviewed := some "2024-01-01" } }

/-- C9 witness content: a legal page with no reviewed date and no
"how we" substring anywhere. -/
def c9WitContent : ExtractedContent :=
  { sections := [{
      heading := "Overview"
      index := 0
      text := "Nothing special here." }] }

/-- An empty score whose dimensions carry no signals (isolates the legal
extras in the recommendation engine). -/
def emptyScore : EEATScore := {}

-- ═══════════════════════════════════════════════════════════════════════════
-- Rounding lemmas
-- ═══════════════════════════════════════════════════════════════════════════

theorem floor_le_roundHalfEven (x : ℚ) : ⌊x⌋ ≤ roundHalfEven x := by
  unfold roundHalfEven
  dsimp only
  split_ifs <;> omega

theorem roundHalfEven_le_floor_add_one (x : ℚ) : roundHalfEven x ≤ ⌊x⌋ + 1 := by
  unfold roundHalfEven
  dsimp only
  split_ifs <;> omega

theorem roundHalfEven_le_of_le (x : ℚ) (m : ℤ) (h : x ≤ (m : ℚ)) :
    roundHalfEven x ≤ m := by
  rcases lt_or_le ⌊x⌋ m with hf | hf
  · exact le_trans (roundHalfEven_le_floor_add_one x) (by omega)
  · have hfl : ⌊x⌋ ≤ m := by
      have := Int.floor_le_floor h
      simpa using this
    have hx : ⌊x⌋ = m := le_antisymm hfl hf
    have hxle : x ≤ (⌊x⌋ : ℚ) := by rw [hx]; exact h
    have hfr : x - (⌊x⌋ : ℚ) < 1 / 2 := by linarith
    unfold roundHalfEven
    dsimp only
    rw [if_pos hfr, hx]

theorem le_roundHalfEven_of_le (x : ℚ) (m : ℤ) (h : (m : ℚ) ≤ x) :
    m ≤ roundHalfEven x :=
  le_trans (Int.le_floor.mpr h) (floor_le_roundHalfEven x)

theorem le_round1 (x : ℚ) (m : ℤ) (h : (m : ℚ) ≤ x * 10) :
    (m : ℚ) / 10 ≤ round1 x := by
  unfold round1
  have := le_roundHalfEven_of_le (x * 10) m h
  have : (m : ℚ) ≤ (roundHalfEven (x * 10) : ℚ) := by exact_mod_cast this
  linarith

theorem round1_le (x : ℚ) (m : ℤ) (h : x * 10 ≤ (m : ℚ)) :
    round1 x ≤ (m : ℚ) / 10 := by
  unfold round1
  have := roundHalfEven_le_of_le (x * 10) m h
  have : (roundHalfEven (x * 10) : ℚ) ≤ (m : ℚ) := by exact_mod_cast this
  linarith

theorem round1_nonneg {x : ℚ} (h : 0 ≤ x) : 0 ≤ round1 x := by
  have := le_round1 x 0 (by push_cast; linarith)
  simpa using this

theorem round1_le_25 {x : ℚ} (h : x ≤ 25) : round1 x ≤ 25 := by
  have := round1_le x 250 (by push_cast; linarith)
  norm_num at this
  exact this

theorem round1_le_100 {x : ℚ} (h : x ≤ 100) : round1 x ≤ 100 := by
  have := round1_le x 1000 (by push_cast; linarith)
  norm_num at this
  exact this

-- ═══════════════════════════════════════════════════════════════════════════
-- Rules-engine signal lemmas
-- ═══════════════════════════════════════════════════════════════════════════

theorem signal_found_eq (n : String) (f : Bool) (p : ℚ) (q l e : String) :
    (_signal n f p q l e).found = f := rfl

theorem signal_points_eq (n : String) (f : Bool) (p : ℚ) (q l e : String) :
    (_signal n f p q l e).points = if f then p else 0 := rfl

theorem signal_found_false_points_zero {n : String} {f : Bool} {p : ℚ}
    {q l e : String} (h : (_signal n f p q l e).found = false) :
    (_signal n f p q l e).points = 0 := by
  rw [signal_found_eq] at h
  rw [signal_points_eq, h]
  simp

/-- Every checker battery entry zeroes its points when the signal is not
found. -/
theorem checks_found_false_points_zero (c : ExtractedContent) :
    ∀ chk ∈ TRUST_CHECKS ++ EXPERIENCE_CHECKS ++ EXPERTISE_CHECKS
      ++ AUTHORITATIVENESS_CHECKS,
      (chk c).found = false → (chk c).points = 0 := by
  intro chk hchk
  simp only [TRUST_CHECKS, EXPERIENCE_CHECKS, EXPERTISE_CHECKS,
    AUTHORITATIVENESS_CHECKS, List.append_assoc, List.cons_append, List.nil_append,
    List.mem_cons, List.not_mem_nil, or_false] at hchk
  rcases hchk with rfl | rfl | rfl | rfl | rfl | rfl | rfl | rfl | rfl | rfl | rfl
    | rfl | rfl | rfl | rfl | rfl | rfl | rfl | rfl | rfl | rfl | rfl | rfl | rfl
  all_goals exact fun h => signal_found_false_points_zero h

theorem signal_points_nonneg {n : String} {f : Bool} {p : ℚ} {q l e : String}
    (hp : 0 ≤ p) : 0 ≤ (_signal n f p q l e).points := by
  rw [signal_points_eq]
  split
  · exact hp
  · exact le_refl 0

/-- Every checker battery entry awards non-negative points. -/
theorem checks_points_nonneg (c : ExtractedContent) :
    ∀ chk ∈ TRUST_CHECKS ++ EXPERIENCE_CHECKS ++ EXPERTISE_CHECKS
      ++ AUTHORITATIVENESS_CHECKS,
      0 ≤ (chk c).points := by
  intro chk hchk
  simp only [TRUST_CHECKS, EXPERIENCE_CHECKS, EXPERTISE_CHECKS,
    AUTHORITATIVENESS_CHECKS, List.append_assoc, List.cons_append, List.nil_append,
    List.mem_cons, List.not_mem_nil, or_false] at hchk
  rcases hchk with rfl | rfl | rfl | rfl | rfl | rfl | rfl | rfl | rfl | rfl | rfl
    | rfl | rfl | rfl | rfl | rfl | rfl | rfl | rfl | rfl | rfl | rfl | rfl | rfl
  all_goals apply signal_points_nonneg
  all_goals positivity

/-- The score formula of one `_run_checks` battery. -/
theorem _run_checks_score_def (checks : List (ExtractedContent → SignalEvidence))
    (c : ExtractedContent) (name : String) (max_pts : ℚ) :
    (_run_checks checks c name max_pts).score
      = round1 (if max_pts > 0 then
          min 25.0 ((((checks.map (fun chk => chk c)).map (fun s => s.points)).sum
            / max_pts) * 25.0)
        else 0.0) := rfl

/-- Bounds for one `_run_checks` battery given non-negative raw points. -/
theorem _run_checks_score_bounds (checks : List (ExtractedContent → SignalEvidence))
    (c : ExtractedContent) (name : String) (max_pts : ℚ)
    (h : ∀ chk ∈ checks, 0 ≤ (chk c).points) :
    0 ≤ (_run_checks checks c name max_pts).score
      ∧ (_run_checks checks c name max_pts).score ≤ 25 := by
  have hraw : 0 ≤ ((checks.map (fun chk => chk c)).map (fun s => s.points)).sum := by
    apply List.sum_nonneg
    intro x hx
    simp only [List.map_map, List.mem_map] at hx
    obtain ⟨chk, hchk, rfl⟩ := hx
    exact h chk hchk
  rw [_run_checks_score_def]
  constructor
  · apply round1_nonneg
    split
    · rename_i hmp
      refine le_min ?_ ?_
      · norm_num
      · exact mul_nonneg (div_nonneg hraw (le_of_lt hmp)) (by norm_num)
    · norm_num
  · apply round1_le_25
    split
    · exact le_trans (min_le_left _ _) (by norm_num)
    · norm_num

-- ═══════════════════════════════════════════════════════════════════════════
-- C2 — Evidence invariant: found = false implies points = 0
-- ═══════════════════════════════════════════════════════════════════════════

/-- C2 (amended): every Evidence record produced by every rule checker run
by run_rules_engine has points = 0 whenever found = false.  (The claim as
stated also asserted this for the advisory-rater parser
_parse_model_response, which is refuted by C2_counterexample: the parser
keeps the capped response points even when found = false.) -/
theorem C2_rules_found_false_points_zero (content : ExtractedContent)
    (ev : SignalEvidence)
    (h : ev ∈ (run_rules_engine content).trust.signals
      ∨ ev ∈ (run_rules_engine content).experience.signals
      ∨ ev ∈ (run_rules_engine content).expertise.signals
      ∨ ev ∈ (run_rules_engine content).authoritativeness.signals)
    (hf : ev.found = false) : ev.points = 0 := by
  have hmem : ∃ chk ∈ TRUST_CHECKS ++ EXPERIENCE_CHECKS ++ EXPERTISE_CHECKS
      ++ AUTHORITATIVENESS_CHECKS, ev = chk content := by
    rcases h with h | h | h | h <;>
      (simp only [run_rules_engine, _run_checks, List.mem_map] at h
       obtain ⟨chk, hchk, rfl⟩ := h
       exact ⟨chk, by simp [hchk], rfl⟩)
  obtain ⟨chk, hchk, rfl⟩ := hmem
  exact checks_found_false_points_zero content chk hchk hf

/-- C2 witness: the about-page checker on empty content is a not-found
evidence of run_rules_engine with zero points. -/
theorem C2_witness :
    (_check_about_page ({} : ExtractedContent)).points = 0 :=
  C2_rules_found_false_points_zero {} _ (Or.inl (by decide)) (by decide)

/-- C2 counterexample: on a service response whose only signal has
found = false and points = 3, the parser produces an Evidence with
found = false and points = 3 ≠ 0. -/
theorem C2_counterexample :
    ∃ ev ∈ (_parse_model_response c2Response).trust.signals,
      ev.found = false ∧ ev.points ≠ 0 := by
  simp only [_parse_model_response, parseRaterDim, c2Response, List.map_cons,
    List.map_nil, List.mem_cons, List.not_mem_nil, or_false]
  refine ⟨_, rfl, rfl, ?_⟩
  show min (4.0 : ℚ) 3 ≠ 0
  rw [min_def]
  norm_num

-- ═══════════════════════════════════════════════════════════════════════════
-- C3 — Rules-only fallback is the identity merge
-- ═══════════════════════════════════════════════════════════════════════════

/-- C3: when the advisory rater is unavailable (None), the merged dimension
scores are exactly the rule-checker scores — same score values, evidence
lists and summaries — and the overall score equals the rules-only
computation. -/
theorem C3_merge_none_identity (rules : DimScores) (rules_weight : ℚ)
    (preset : ContentPreset) :
    _merge_dimensions rules none rules_weight = rules
      ∧ _compute_overall (_merge_dimensions rules none rules_weight) preset
        = _compute_overall rules preset :=
  ⟨rfl, rfl⟩

-- ═══════════════════════════════════════════════════════════════════════════
-- C10 — The Expertise floor from the internal-consistency placeholder
-- ═══════════════════════════════════════════════════════════════════════════

/-- C10: for every content, the Expertise dimension of run_rules_engine
contains the "Internal consistency" evidence with found = true and
points = 1.5, and consequently its score is at least 3.1 and never 0. -/
theorem C10_expertise_floor (content : ExtractedContent) :
    (∃ ev ∈ (run_rules_engine content).expertise.signals,
        ev.signal = "Internal consistency" ∧ ev.found = true ∧ ev.points = 1.5)
      ∧ 31 / 10 ≤ (run_rules_engine content).expertise.score
      ∧ (run_rules_engine content).expertise.score ≠ 0 := by
  have hmem : ∀ chk ∈ EXPERTISE_CHECKS, 0 ≤ (chk content).points := by
    intro chk hchk
    refine checks_points_nonneg content chk ?_
    simp only [List.mem_append]
    exact Or.inl (Or.inr hchk)
  have h1 : 0 ≤ (_check_terminology content).points :=
    hmem _ (by simp [EXPERTISE_CHECKS])
  have h2 : 0 ≤ (_check_scope_limits content).points :=
    hmem _ (by simp [EXPERTISE_CHECKS])
  have h3 : 0 ≤ (_check_depth content).points :=
    hmem _ (by simp [EXPERTISE_CHECKS])
  have h4 : (_check_internal_consistency content).points = 1.5 := rfl
  have hexp : (run_rules_engine content).expertise
      = _run_checks EXPERTISE_CHECKS content "Expertise" 12.0 := rfl
  have hsum : ((EXPERTISE_CHECKS.map (fun chk => chk content)).map
      (fun s => s.points)).sum
      = (_check_terminology content).points + ((_check_scope_limits content).points
        + ((_check_depth content).points
          + ((_check_internal_consistency content).points + 0))) := by
    simp [EXPERTISE_CHECKS]
  have hscore : 31 / 10 ≤ (run_rules_engine content).expertise.score := by
    rw [hexp, _run_checks_score_def, hsum, if_pos (by norm_num : (12.0 : ℚ) > 0)]
    have hx : (25 : ℚ) / 8 ≤ min 25.0 (((_check_terminology content).points
        + ((_check_scope_limits content).points
          + ((_check_depth content).points
            + ((_check_internal_consistency content).points + 0)))) / 12.0 * 25.0) := by
      apply le_min
      · norm_num
      · rw [h4]; norm_num; linarith
    refine le_trans (by norm_num : (31 : ℚ) / 10 ≤ ((31 : ℤ) : ℚ) / 10)
      (le_round1 _ 31 ?_)
    push_cast
    linarith
  refine ⟨⟨_check_internal_consistency content, ?_, rfl, rfl, rfl⟩, hscore, ?_⟩
  · show _check_internal_consistency content
      ∈ (_run_checks EXPERTISE_CHECKS content "Expertise" 12.0).signals
    simp [_run_checks, EXPERTISE_CHECKS]
  · intro h
    rw [h] at hscore
    norm_num at hscore

-- ═══════════════════════════════════════════════════════════════════════════
-- C4 — Score bounds
-- ═══════════════════════════════════════════════════════════════════════════

/-- The score formula of `parseRaterDim`. -/
theorem parseRaterDim_score_le (name : String) (block : RaterDim) :
    (parseRaterDim name block).score ≤ 25 := by
  show round1 _ ≤ 25
  apply round1_le_25
  split_ifs <;> first
    | exact le_trans (min_le_left _ _) (by norm_num)
    | norm_num

/-- C4 (amended): every rule-checker dimension score lies in [0, 25]; the
overall score lies in [0, 100]; advisory-parsed scores are at most 25; and a
blended score is at most 25 whenever both inputs are at most 25 and the
rules weight lies in [0, 1] — no lower bound on either input score is
needed, so negative advisory-parsed scores are covered.  (The claim as
stated also asserted 0 ≤ score for advisory-parsed and merged scores, which
is refuted by C4_counterexample: a negative response point value drives the
parsed score negative, and the negative score survives the 0.6/0.4 merge.) -/
theorem C4_score_bounds :
    (∀ content : ExtractedContent,
        (0 ≤ (run_rules_engine content).trust.score
          ∧ (run_rules_engine content).trust.score ≤ 25)
        ∧ (0 ≤ (run_rules_engine content).experience.score
          ∧ (run_rules_engine content).experience.score ≤ 25)
        ∧ (0 ≤ (run_rules_engine content).expertise.score
          ∧ (run_rules_engine content).expertise.score ≤ 25)
        ∧ (0 ≤ (run_rules_engine content).authoritativeness.score
          ∧ (run_rules_engine content).authoritativeness.score ≤ 25))
      ∧ (∀ (dims : DimScores) (preset : ContentPreset),
          0 ≤ _compute_overall dims preset ∧ _compute_overall dims preset ≤ 100)
      ∧ (∀ data : RaterResponse,
          (_parse_model_response data).trust.score ≤ 25
          ∧ (_parse_model_response data).experience.score ≤ 25
          ∧ (_parse_model_response data).expertise.score ≤ 25
          ∧ (_parse_model_response data).authoritativeness.score ≤ 25)
      ∧ (∀ (name : String) (r m : DimensionScore) (w : ℚ),
          r.score ≤ 25 → m.score ≤ 25 →
          0 ≤ w → w ≤ 1 → (blendDim name r m w).score ≤ 25) := by
  refine ⟨?_, ?_, ?_, ?_⟩
  · intro content
    refine ⟨?_, ?_, ?_, ?_⟩ <;>
      refine _run_checks_score_bounds _ content _ _ (fun chk hchk =>
        checks_points_nonneg content chk ?_) <;>
      simp only [List.mem_append]
    · exact Or.inl (Or.inl (Or.inl hchk))
    · exact Or.inl (Or.inl (Or.inr hchk))
    · exact Or.inl (Or.inr hchk)
    · exact Or.inr hchk
  · intro dims preset
    constructor
    · apply round1_nonneg
      exact le_min (by norm_num) (le_trans (by norm_num) (le_max_left 0.0 _))
    · apply round1_le_100
      exact le_trans (min_le_left _ _) (by norm_num)
  · intro data
    exact ⟨parseRaterDim_score_le _ _, parseRaterDim_score_le _ _,
      parseRaterDim_score_le _ _, parseRaterDim_score_le _ _⟩
  · intro name r m w hr25 hm25 hw0 hw1
    show round1 _ ≤ 25
    apply round1_le_25
    nlinarith [mul_nonneg (sub_nonneg.mpr hr25) hw0,
      mul_nonneg (sub_nonneg.mpr hm25) (sub_nonneg.mpr hw1)]

/-- C4 witness: blending an in-range rules score with the negative
advisory-parsed score of the counterexample, at the pipeline weight 0.6,
still stays at most 25. -/
theorem C4_witness :
    (blendDim "Trust" { name := "Trust", score := 20 }
      { name := "Trust", score := -25 } 0.6).score ≤ 25 :=
  C4_score_bounds.2.2.2 "Trust" { name := "Trust", score := 20 }
    { name := "Trust", score := -25 } 0.6 (by norm_num) (by norm_num)
    (by norm_num) (by norm_num)

/-- C4 counterexample: a service response carrying a negative point value
produces an advisory-parsed dimension score of -25, violating 0 ≤ score;
merging it with the rules scores of empty content (trust 0) at the
pipeline weight 0.6 leaves the merged trust score negative as well. -/
theorem C4_counterexample :
    (_parse_model_response c4Response).trust.score < 0
      ∧ (_merge_dimensions (run_rules_engine c4Content)
          (some (_parse_model_response c4Response)) 0.6).trust.score < 0 := by
  have hmin4 : min (4.0 : ℚ) (-4) = -4 := by rw [min_def]; norm_num
  have hinner : (_parse_model_response c4Response).trust.score = round1 (-25) := by
    show (parseRaterDim "Trust" c4Response.trust).score = round1 (-25)
    unfold parseRaterDim
    simp only [c4Response, List.map_cons, List.map_nil, List.sum_cons, List.sum_nil,
      List.length_cons, List.length_nil, List.isEmpty_cons, Bool.not_false, if_true]
    norm_num [hmin4, min_def]
  have hparsed_le : (_parse_model_response c4Response).trust.score ≤ -25 := by
    rw [hinner]
    have h := round1_le (-25) (-250) (by norm_num)
    norm_num at h
    exact h
  refine ⟨lt_of_le_of_lt hparsed_le (by norm_num), ?_⟩
  have hraw : ((TRUST_CHECKS.map (fun chk => chk c4Content)).map
      (fun s => s.points)).sum = 0 := by
    simp only [TRUST_CHECKS, List.map_cons, List.map_nil, List.sum_cons,
      List.sum_nil]
    rw [show (_check_about_page c4Content).points = 0 from rfl,
      show (_check_contact_page c4Content).points = 0 from rfl,
      show (_check_privacy_policy c4Content).points = 0 from rfl,
      show (_check_terms c4Content).points = 0 from rfl,
      show (_check_editorial_policy c4Content).points = 0 from rfl,
      show (_check_dates c4Content).points = 0 from rfl,
      show (_check_citations_count c4Content).points = 0 from rfl,
      show (_check_disclaimers c4Content).points = 0 from rfl,
      show (_check_disclosures c4Content).points = 0 from rfl,
      show (_check_schema c4Content).points = 0 from rfl]
    norm_num
  have hscore : (run_rules_engine c4Content).trust.score
      = round1 (if (18.0 : ℚ) > 0 then min 25.0
          ((((TRUST_CHECKS.map (fun chk => chk c4Content)).map
            (fun s => s.points)).sum / 18.0) * 25.0) else 0.0) := rfl
  have hrule_le : (run_rules_engine c4Content).trust.score ≤ 0 := by
    rw [hscore, hraw, if_pos (by norm_num : (18.0 : ℚ) > 0)]
    have hmin : min (25.0 : ℚ) (((0 : ℚ) / 18.0) * 25.0) = 0 := by
      rw [min_def]
      norm_num
    rw [hmin]
    have h := round1_le 0 0 (by norm_num)
    norm_num at h
    exact h
  have hmerge : (_merge_dimensions (run_rules_engine c4Content)
      (some (_parse_model_response c4Response)) 0.6).trust.score
      = round1 ((run_rules_engine c4Content).trust.score * 0.6
          + (_parse_model_response c4Response).trust.score * (1 - 0.6)) := rfl
  rw [hmerge]
  have hsum : (run_rules_engine c4Content).trust.score * 0.6
      + (_parse_model_response c4Response).trust.score * (1 - 0.6) ≤ -10 := by
    nlinarith [hrule_le, hparsed_le]
  have h := round1_le ((run_rules_engine c4Content).trust.score * 0.6
      + (_parse_model_response c4Response).trust.score * (1 - 0.6)) (-100)
    (by push_cast; linarith)
  refine lt_of_le_of_lt h ?_
  norm_num

-- ═══════════════════════════════════════════════════════════════════════════
-- Lexicographic string order lemmas (for the low-trust source sort)
-- ═══════════════════════════════════════════════════════════════════════════

theorem lexLe_total : ∀ a b : List Char, lexLe a b = true ∨ lexLe b a = true := by
  intro a
  induction a with
  | nil => intro b; left; rfl
  | cons x xs ih =>
    intro b
    cases b with
    | nil => right; rfl
    | cons y ys =>
      rcases lt_trichotomy x y with h | h | h
      · left; simp [lexLe, h]
      · subst h
        rcases ih ys with h2 | h2
        · left; simp [lexLe, lt_irrefl, h2]
        · right; simp [lexLe, lt_irrefl, h2]
      · right; simp [lexLe, h]

theorem lexLe_trans : ∀ a b c : List Char,
    lexLe a b = true → lexLe b c = true → lexLe a c = true := by
  intro a
  induction a with
  | nil => intro b c _ _; rfl
  | cons x xs ih =>
    intro b c hab hbc
    cases b with
    | nil => simp [lexLe] at hab
    | cons y ys =>
      cases c with
      | nil => simp [lexLe] at hbc
      | cons z zs =>
        simp only [lexLe] at hab hbc ⊢
        rcases lt_trichotomy x y with hxy | hxy | hxy
        · rcases lt_trichotomy y z with hyz | hyz | hyz
          · simp [lt_trans hxy hyz]
          · subst hyz; simp [hxy]
          · rw [if_neg (asymm hyz), if_neg (ne_of_gt hyz)] at hbc
            simp at hbc
        · subst hxy
          rcases lt_trichotomy x z with hxz | hxz | hxz
          · simp [hxz]
          · subst hxz
            rw [if_neg (lt_irrefl x), if_pos rfl] at hab hbc ⊢
            exact ih ys zs hab hbc
          · rw [if_neg (asymm hxz), if_neg (ne_of_gt hxz)] at hbc
            simp at hbc
        · rw [if_neg (asymm hxy), if_neg (ne_of_gt hxy)] at hab
          simp at hab

instance : IsTotal String (fun a b => strLe a b = true) :=
  ⟨fun a b => lexLe_total a.data b.data⟩

instance : IsTrans String (fun a b => strLe a b = true) :=
  ⟨fun a b c => lexLe_trans a.data b.data c.data⟩

-- ═══════════════════════════════════════════════════════════════════════════
-- C5 — The overbroad-language override
-- ═══════════════════════════════════════════════════════════════════════════

/-- C5: every claim produced by audit_claims whose sentence contains
absolute / universal language (the `_is_overbroad` pattern set: always,
never, everyone, no one, guaranteed, 100%, all cases, without exception,
matched case-insensitively) carries the grade NEEDS_QUALIFICATION and the
fixed override explanation, whatever citation-based grading would have
assigned. -/
theorem C5_overbroad_forces_needs_qualification (content : ExtractedContent)
    (cl : Claim) (hmem : cl ∈ (audit_claims content).claims)
    (hov : _is_overbroad cl.text = true) :
    cl.evidence_grade = EvidenceGrade.needs_qualification
      ∧ cl.explanation = overbroadExplanation := by
  have hmem2 : cl ∈ allClaims content := hmem
  unfold allClaims at hmem2
  rw [List.mem_flatMap] at hmem2
  obtain ⟨sec, _, hsec⟩ := hmem2
  unfold sectionClaims at hsec
  rw [List.mem_flatMap] at hsec
  obtain ⟨sentence, _, hsent⟩ := hsec
  rw [List.mem_map] at hsent
  obtain ⟨m, _, rfl⟩ := hsent
  have htext : _is_overbroad sentence = true := hov
  constructor
  · show (if _is_overbroad sentence then EvidenceGrade.needs_qualification
      else (_grade_claim sentence (sectionLinksFor content sec.index)).1)
        = EvidenceGrade.needs_qualification
    rw [htext]
    simp
  · show (if _is_overbroad sentence then overbroadExplanation
      else (_grade_claim sentence (sectionLinksFor content sec.index)).2.2)
        = overbroadExplanation
    rw [htext]
    simp

/-- C5 witness: a concrete overbroad statistic claim receives the override
grade and explanation. -/
theorem C5_witness :
    ∃ cl ∈ (audit_claims c5Content).claims,
      _is_overbroad cl.text = true
        ∧ cl.evidence_grade = EvidenceGrade.needs_qualification
        ∧ cl.explanation = overbroadExplanation := by
  refine ⟨{ text := "Studies show you never lose your deposit in these cases."
            claim_type := ClaimType.statistic
            section_index := 0
            evidence_grade := EvidenceGrade.needs_qualification
            nearest_citation := none
            explanation := overbroadExplanation }, ?_, ?_, ?_⟩
  · decide
  · decide
  · exact C5_overbroad_forces_needs_qualification c5Content _ (by decide) (by decide)

-- ═══════════════════════════════════════════════════════════════════════════
-- C1 — The spec test sentence (corrected)
-- ═══════════════════════════════════════════════════════════════════════════

/-- C1 counterexample: for the section holding the sentence "Studies show
that you will always recover full compensation." and no associated links,
audit_claims detects exactly one claim — a STATISTIC — and its grade is
NEEDS_QUALIFICATION, not UNSUPPORTED (the claim asserted two claims,
STATISTIC and OUTCOME, and an UNSUPPORTED grade). -/
theorem C1_counterexample :
    ((audit_claims c1ContentNoLinks).claims.map (fun c => c.claim_type)
        = [ClaimType.statistic])
      ∧ ((audit_claims c1ContentNoLinks).claims.map (fun c => c.evidence_grade)
        = [EvidenceGrade.needs_qualification]) := by
  constructor <;> decide

/-- C1 (amended): the sentence is detected as a STATISTIC claim only (no
OUTCOME pattern matches, since "you will" is followed by "always"), and the
overbroad-language override forces NEEDS_QUALIFICATION both with no
associated links and with a cdc.gov link. -/
theorem C1_statistic_needs_qualification :
    ((audit_claims c1ContentNoLinks).claims.map
        (fun c => (c.claim_type, c.evidence_grade))
      = [(ClaimType.statistic, EvidenceGrade.needs_qualification)])
    ∧ ((audit_claims c1ContentCdc).claims.map
        (fun c => (c.claim_type, c.evidence_grade, c.nearest_citation))
      = [(ClaimType.statistic, EvidenceGrade.needs_qualification,
          some "https://www.cdc.gov/stats")]) := by
  constructor <;> decide

-- ═══════════════════════════════════════════════════════════════════════════
-- C7 — Weakly-supported citation and the low-trust source set
-- ═══════════════════════════════════════════════════════════════════════════

/-- C7: the sentence "According to a 2022 study, recovery rates average
40%." with a forum.example.com link is graded WEAKLY_SUPPORTED, the link URL
appears in low_trust_sources, and for every content the low_trust_sources
list is duplicate-free and sorted. -/
theorem C7_weak_citation_low_trust :
    ((audit_claims c7Content).claims.map
        (fun c => (c.claim_type, c.evidence_grade, c.nearest_citation))
      = [(ClaimType.statistic, EvidenceGrade.weakly_supported,
          some "https://forum.example.com/thread/123")])
    ∧ (audit_claims c7Content).low_trust_sources
        = ["https://forum.example.com/thread/123"]
    ∧ ∀ content : ExtractedContent,
        (audit_claims content).low_trust_sources.Nodup
        ∧ List.Sorted (fun a b => strLe a b = true)
            (audit_claims content).low_trust_sources := by
  refine ⟨by decide, by decide, ?_⟩
  intro content
  constructor
  · show (List.insertionSort _ _).Nodup
    exact (List.perm_insertionSort _ _).nodup_iff.mpr (List.nodup_dedup _)
  · exact List.sorted_insertionSort _ _

-- ═══════════════════════════════════════════════════════════════════════════
-- C6 — Recommendation deduplication and ranking
-- ═══════════════════════════════════════════════════════════════════════════

theorem recOrder_trans : ∀ a b c : Recommendation,
    recOrder a b → recOrder b c → recOrder a c := by
  intro a b c h1 h2
  unfold recOrder at *
  rcases h1 with h1 | ⟨h1e, h1p⟩ <;> rcases h2 with h2 | ⟨h2e, h2p⟩
  · left; omega
  · left; omega
  · left; omega
  · right; exact ⟨h1e.trans h2e, h2p.trans h1p⟩

theorem keyLt_recOrder {a b : Recommendation} (h : recKeyLt a b = true) :
    recOrder a b := by
  unfold recKeyLt at h
  unfold recOrder
  simp only [Bool.or_eq_true, Bool.and_eq_true, decide_eq_true_eq] at h
  rcases h with h | ⟨h1, h2⟩
  · exact Or.inl h
  · exact Or.inr ⟨h1, le_of_lt h2⟩

theorem not_keyLt_recOrder {a b : Recommendation} (h : recKeyLt b a = false) :
    recOrder a b := by
  unfold recKeyLt at h
  unfold recOrder
  simp only [Bool.or_eq_false_iff, Bool.and_eq_false_iff, decide_eq_false_iff_not,
    decide_eq_true_eq] at h
  obtain ⟨h1, h2⟩ := h
  rcases Nat.lt_or_ge (impactRank a.impact) (impactRank b.impact) with hlt | hge
  · exact Or.inl hlt
  · have heq : impactRank a.impact = impactRank b.impact :=
      le_antisymm (Nat.le_of_not_lt h1) hge
    rcases h2 with h2 | h2
    · exact absurd heq.symm h2
    · exact Or.inr ⟨heq, le_of_not_lt h2⟩

theorem mem_insertRec {a x : Recommendation} {l : List Recommendation} :
    x ∈ insertRec a l ↔ x = a ∨ x ∈ l := by
  induction l with
  | nil => simp [insertRec]
  | cons b t ih =>
    unfold insertRec
    split
    · simp only [List.mem_cons]
    · simp only [List.mem_cons, ih]
      tauto

theorem pairwise_insertRec (a : Recommendation) (l : List Recommendation)
    (h : l.Pairwise recOrder) : (insertRec a l).Pairwise recOrder := by
  induction l with
  | nil => simp [insertRec]
  | cons b t ih =>
    rw [List.pairwise_cons] at h
    obtain ⟨hb, ht⟩ := h
    unfold insertRec
    split
    · rename_i hlt
      rw [List.pairwise_cons]
      refine ⟨?_, List.pairwise_cons.mpr ⟨hb, ht⟩⟩
      intro x hx
      rcases List.mem_cons.mp hx with rfl | hx2
      · exact keyLt_recOrder hlt
      · exact recOrder_trans _ _ _ (keyLt_recOrder hlt) (hb x hx2)
    · rename_i hnlt
      rw [List.pairwise_cons]
      refine ⟨?_, ih ht⟩
      intro x hx
      rcases mem_insertRec.mp hx with rfl | hx2
      · exact not_keyLt_recOrder (Bool.eq_false_iff.mpr hnlt)
      · exact hb x hx2

theorem pairwise_sortRecs (l : List Recommendation) :
    (sortRecs l).Pairwise recOrder := by
  induction l with
  | nil => simp [sortRecs]
  | cons a t ih => exact pairwise_insertRec a (sortRecs t) ih

theorem insertRec_perm (a : Recommendation) (l : List Recommendation) :
    List.Perm (insertRec a l) (a :: l) := by
  induction l with
  | nil => rfl
  | cons b t ih =>
    unfold insertRec
    split
    · rfl
    · exact (List.Perm.cons b ih).trans (List.Perm.swap a b t)

theorem sortRecs_perm (l : List Recommendation) : List.Perm (sortRecs l) l := by
  induction l with
  | nil => rfl
  | cons a t ih => exact (insertRec_perm a (sortRecs t)).trans (List.Perm.cons a ih)

theorem dedupRecsAux_titles_nodup (l : List Recommendation) :
    ∀ seen : List String,
      ((dedupRecsAux seen l).map (fun r => r.title)).Nodup
        ∧ ∀ t ∈ (dedupRecsAux seen l).map (fun r => r.title), t ∉ seen := by
  induction l with
  | nil => intro seen; simp [dedupRecsAux]
  | cons r rest ih =>
    intro seen
    unfold dedupRecsAux
    split
    · exact ih seen
    · rename_i hnin
      obtain ⟨ihn, ihs⟩ := ih (r.title :: seen)
      constructor
      · simp only [List.map_cons, List.nodup_cons]
        exact ⟨fun hmem => (ihs _ hmem) (List.mem_cons_self _ _), ihn⟩
      · intro t ht
        simp only [List.map_cons, List.mem_cons] at ht
        rcases ht with rfl | ht
        · exact hnin
        · exact fun hseen => (ihs t ht) (List.mem_cons_of_mem _ hseen)

theorem mem_title_dedupRecsAux (l : List Recommendation) :
    ∀ (seen : List String) (t : String),
      t ∈ (dedupRecsAux seen l).map (fun r => r.title)
        ↔ t ∈ l.map (fun r => r.title) ∧ t ∉ seen := by
  induction l with
  | nil => intro seen t; simp [dedupRecsAux]
  | cons r rest ih =>
    intro seen t
    unfold dedupRecsAux
    split
    · rename_i hin
      rw [ih seen t]
      simp only [List.map_cons, List.mem_cons]
      constructor
      · rintro ⟨h1, h2⟩
        exact ⟨Or.inr h1, h2⟩
      · rintro ⟨h1 | h1, h2⟩
        · subst h1; exact absurd hin h2
        · exact ⟨h1, h2⟩
    · rename_i hnin
      simp only [List.map_cons, List.mem_cons, ih (r.title :: seen) t]
      constructor
      · rintro (rfl | ⟨h1, h2⟩)
        · exact ⟨Or.inl rfl, hnin⟩
        · exact ⟨Or.inr h1, fun hs => h2 (Or.inr hs)⟩
      · rintro ⟨h1 | h1, h2⟩
        · exact Or.inl h1
        · by_cases ht : t = r.title
          · exact Or.inl ht
          · refine Or.inr ⟨h1, ?_⟩
            intro hs
            rcases hs with h3 | h3
            · exact ht h3
            · exact h2 h3

/-- The dedup-then-sort tail of `generate_recommendations` always yields
distinct titles and the ranking order. -/
theorem sorted_dedup_spec (l : List Recommendation) :
    ((sortRecs (dedupRecsAux [] l)).map (fun r => r.title)).Nodup
      ∧ (sortRecs (dedupRecsAux [] l)).Pairwise recOrder := by
  constructor
  · exact ((sortRecs_perm (dedupRecsAux [] l)).map (fun r => r.title)).nodup_iff.mpr
      (dedupRecsAux_titles_nodup l []).1
  · exact pairwise_sortRecs _

/-- C6: the recommendation list never repeats a title, and scanned in order
the entries are monotone in the sort contract: the impact rank (HIGH before
MEDIUM before LOW) never decreases, and within an equal impact tier the
points potential never increases. -/
theorem C6_recommendation_ranking (score : EEATScore) (content : ExtractedContent)
    (audit : CitationAudit) (preset : ContentPreset) (ymyl_risk : YMYLRisk) :
    ((generate_recommendations score content audit preset ymyl_risk).map
        (fun r => r.title)).Nodup
      ∧ (generate_recommendations score content audit preset ymyl_risk).Pairwise
          recOrder :=
  sorted_dedup_spec _

-- ═══════════════════════════════════════════════════════════════════════════
-- C9 — Legal-preset extra recommendations
-- ═══════════════════════════════════════════════════════════════════════════

/-- A string with prefix `p` differs from any string `t` that does not
start with `p`. -/
theorem append_prefix_ne (p s t : String) (h : ¬ p.data <+: t.data) :
    p ++ s ≠ t := by
  intro he
  apply h
  rw [← he, String.data_append]
  exact List.prefix_append _ _

theorem prefix3_ne (p a b t : String) (h : ¬ p.data <+: t.data) :
    p ++ a ++ b ≠ t := by
  intro he
  apply h
  rw [← he, String.data_append, String.data_append, List.append_assoc]
  exact List.prefix_append _ _

theorem templateFor_title {n : String} {leg : Bool}
    {t : String × String × String × EffortLevel × ImpactLevel × ℚ × FixScope}
    (h : templateFor n leg = some t) : t.1 ∈ TEMPLATE_TITLES := by
  unfold templateFor at h
  split at h
  all_goals first
    | (rw [Option.some_inj] at h; subst h; decide)
    | (rw [Option.some_inj] at h; subst h; simp [TEMPLATE_TITLES])
    | exact absurd h (by simp)

theorem missing_signal_rec_title (score : EEATScore) (content : ExtractedContent)
    (preset : ContentPreset) (r : Recommendation)
    (h : r ∈ _recs_from_missing_signals score content preset) :
    r.title ∈ TEMPLATE_TITLES := by
  unfold _recs_from_missing_signals at h
  rw [List.mem_flatMap] at h
  obtain ⟨dim, _, h⟩ := h
  rw [List.mem_flatMap] at h
  obtain ⟨sig, _, h⟩ := h
  split at h
  · simp at h
  · split at h
    · simp at h
    · rename_i rec heq
      unfold _signal_to_recommendation at heq
      rw [Option.map_eq_some'] at heq
      obtain ⟨t, ht, hrec⟩ := heq
      have htitle : rec.title = t.1 := by rw [← hrec]
      split at h <;>
        (rw [List.mem_singleton] at h
         subst h
         first
           | (show rec.title ∈ _; rw [htitle]; exact templateFor_title ht)
           | (rw [htitle]; exact templateFor_title ht))

theorem claims_rec_title (audit : CitationAudit) (leg : Bool) (r : Recommendation)
    (h : r ∈ _recs_from_claims audit leg) :
    r.title ≠ "Add attorney review line"
      ∧ r.title ≠ "Add \"How we built this guide\" section" := by
  unfold _recs_from_claims at h
  rw [List.mem_append, List.mem_append] at h
  rcases h with (h | h) | h <;>
    (split at h
     · rw [List.mem_singleton] at h
       subst h
       refine ⟨?_, ?_⟩ <;>
         (dsimp only
          exact prefix3_ne _ _ _ _ (by decide))
     · exact absurd h (List.not_mem_nil _))

theorem prefix4_ne (p a b c t : String) (h : ¬ p.data <+: t.data) :
    p ++ a ++ b ++ c ≠ t := by
  intro he
  apply h
  rw [← he, String.data_append, String.data_append, String.data_append,
    List.append_assoc, List.append_assoc]
  exact List.prefix_append _ _

theorem compliance_rec_title (flags : List ComplianceFlag) (r : Recommendation)
    (h : r ∈ _recs_from_compliance flags) :
    r.title ≠ "Add attorney review line"
      ∧ r.title ≠ "Add \"How we built this guide\" section" := by
  unfold _recs_from_compliance at h
  rw [List.mem_map] at h
  obtain ⟨flag, _, rfl⟩ := h
  refine ⟨?_, ?_⟩ <;>
    (dsimp only
     exact prefix4_ne _ _ _ _ _ (by decide))

theorem extras_attorney_iff (content : ExtractedContent) (score : EEATScore) :
    ("Add attorney review line"
        ∈ (_recs_for_legal_extras content score).map (fun r => r.title))
      ↔ truthyS content.dates.reviewed = false := by
  unfold _recs_for_legal_extras
  cases hrev : truthyS content.dates.reviewed <;>
    cases hhow : content.sections.any
        (fun s => strContains (lowerData s.text) "how we".data) <;>
    simp [hrev, hhow]

theorem extras_methodology_iff (content : ExtractedContent) (score : EEATScore) :
    ("Add \"How we built this guide\" section"
        ∈ (_recs_for_legal_extras content score).map (fun r => r.title))
      ↔ (content.sections.any
          (fun s => strContains (lowerData s.text) "how we".data)) = false := by
  unfold _recs_for_legal_extras
  cases hrev : truthyS content.dates.reviewed <;>
    cases hhow : content.sections.any
        (fun s => strContains (lowerData s.text) "how we".data) <;>
    simp [hrev, hhow]

/-- `generate_recommendations` unfolded. -/
theorem generate_recommendations_def (score : EEATScore)
    (content : ExtractedContent) (audit : CitationAudit) (preset : ContentPreset)
    (ymyl_risk : YMYLRisk) :
    generate_recommendations score content audit preset ymyl_risk
      = sortRecs (dedupRecsAux []
          (_recs_from_missing_signals score content preset
            ++ _recs_from_claims audit (startsWithB (presetValue preset) "legal")
            ++ _recs_from_compliance score.compliance_flags
            ++ (if startsWithB (presetValue preset) "legal" then
                _recs_for_legal_extras content score else []))) := rfl

/-- Title membership in the final recommendation list coincides with title
membership in the concatenated generator output. -/
theorem mem_title_generate (score : EEATScore) (content : ExtractedContent)
    (audit : CitationAudit) (preset : ContentPreset) (ymyl_risk : YMYLRisk)
    (t : String) :
    (t ∈ (generate_recommendations score content audit preset ymyl_risk).map
        (fun r => r.title))
      ↔ t ∈ (_recs_from_missing_signals score content preset
          ++ _recs_from_claims audit (startsWithB (presetValue preset) "legal")
          ++ _recs_from_compliance score.compliance_flags
          ++ (if startsWithB (presetValue preset) "legal" then
              _recs_for_legal_extras content score else [])).map
          (fun r => r.title) := by
  rw [generate_recommendations_def]
  constructor
  · intro h
    have h2 := ((sortRecs_perm (dedupRecsAux []
        (_recs_from_missing_signals score content preset
          ++ _recs_from_claims audit (startsWithB (presetValue preset) "legal")
          ++ _recs_from_compliance score.compliance_flags
          ++ (if startsWithB (presetValue preset) "legal" then
              _recs_for_legal_extras content score else [])))).map
        (fun r => r.title)).mem_iff.mp h
    exact ((mem_title_dedupRecsAux _ [] t).mp h2).1
  · intro h
    refine ((sortRecs_perm (dedupRecsAux []
        (_recs_from_missing_signals score content preset
          ++ _recs_from_claims audit (startsWithB (presetValue preset) "legal")
          ++ _recs_from_compliance score.compliance_flags
          ++ (if startsWithB (presetValue preset) "legal" then
              _recs_for_legal_extras content score else [])))).map
        (fun r => r.title)).mem_iff.mpr ?_
    exact (mem_title_dedupRecsAux _ [] t).mpr ⟨h, by simp⟩

/-- C9 (amended): under a legal preset, generate_recommendations includes
the attorney-review-line recommendation exactly when the content has no
(truthy) reviewed date, and the "How we built this guide" methodology
recommendation exactly when no section text contains the substring
"how we" (case-insensitively).  (The claim as stated had the methodology
condition as the full phrase "how we built this"; C9_counterexample
refutes that: the source tests only for "how we".) -/
theorem C9_legal_extras (score : EEATScore) (content : ExtractedContent)
    (audit : CitationAudit) (preset : ContentPreset) (ymyl_risk : YMYLRisk)
    (hleg : startsWithB (presetValue preset) "legal" = true) :
    (("Add attorney review line"
        ∈ (generate_recommendations score content audit preset ymyl_risk).map
            (fun r => r.title))
      ↔ truthyS content.dates.reviewed = false)
    ∧ (("Add \"How we built this guide\" section"
        ∈ (generate_recommendations score content audit preset ymyl_risk).map
            (fun r => r.title))
      ↔ (content.sections.any
          (fun s => strContains (lowerData s.text) "how we".data)) = false) := by
  have hsplit : ∀ t : String,
      (∀ r ∈ _recs_from_missing_signals score content preset, r.title ≠ t) →
      (∀ r ∈ _recs_from_claims audit (startsWithB (presetValue preset) "legal"),
        r.title ≠ t) →
      (∀ r ∈ _recs_from_compliance score.compliance_flags, r.title ≠ t) →
      ((t ∈ (generate_recommendations score content audit preset ymyl_risk).map
          (fun r => r.title))
        ↔ t ∈ (_recs_for_legal_extras content score).map (fun r => r.title)) := by
    intro t hm hc hf
    rw [mem_title_generate]
    simp only [hleg, eq_self_iff_true, if_true, List.map_append, List.mem_append]
    constructor
    · rintro (((h | h) | h) | h)
      · rw [List.mem_map] at h
        obtain ⟨r, hr, rfl⟩ := h
        exact absurd rfl (hm r hr)
      · rw [List.mem_map] at h
        obtain ⟨r, hr, rfl⟩ := h
        exact absurd rfl (hc r hr)
      · rw [List.mem_map] at h
        obtain ⟨r, hr, rfl⟩ := h
        exact absurd rfl (hf r hr)
      · exact h
    · intro h
      exact Or.inr h
  constructor
  · rw [hsplit "Add attorney review line"
      (fun r hr hteq => by
        have := missing_signal_rec_title score content preset r hr
        rw [hteq] at this
        exact absurd this (by decide))
      (fun r hr => (claims_rec_title _ _ r hr).1)
      (fun r hr => (compliance_rec_title _ r hr).1)]
    exact extras_attorney_iff content score
  · rw [hsplit "Add \"How we built this guide\" section"
      (fun r hr hteq => by
        have := missing_signal_rec_title score content preset r hr
        rw [hteq] at this
        exact absurd this (by decide))
      (fun r hr => (claims_rec_title _ _ r hr).2)
      (fun r hr => (compliance_rec_title _ r hr).2)]
    exact extras_methodology_iff content score

/-- C9 counterexample: a legal page whose only section says "how we work"
does not contain the phrase "how we built this", yet the methodology
recommendation is not generated (the source checks only for "how we"). -/
theorem C9_counterexample :
    (∀ sec ∈ c9CexContent.sections,
        strContains (lowerData sec.text) (lowerData "how we built this") = false)
      ∧ "Add \"How we built this guide\" section"
        ∉ (generate_recommendations emptyScore c9CexContent {}
            ContentPreset.legal_guide YMYLRisk.high).map (fun r => r.title) := by
  constructor
  · decide
  · decide

/-- C9 witness: with a legal preset, no reviewed date and no "how we"
substring, both extra recommendations appear in the final list. -/
theorem C9_witness :
    ("Add attorney review line"
        ∈ (generate_recommendations emptyScore c9WitContent {}
            ContentPreset.legal_guide YMYLRisk.high).map (fun r => r.title))
      ∧ ("Add \"How we built this guide\" section"
        ∈ (generate_recommendations emptyScore c9WitContent {}
            ContentPreset.legal_guide YMYLRisk.high).map (fun r => r.title)) :=
  ⟨(C9_legal_extras emptyScore c9WitContent {} ContentPreset.legal_guide
      YMYLRisk.high (by decide)).1.mpr (by decide),
   (C9_legal_extras emptyScore c9WitContent {} ContentPreset.legal_guide
      YMYLRisk.high (by decide)).2.mpr (by decide)⟩

-- ───────────────────────────────────────────────────────────────────────────
-- C8: generic facts about the regex engine
-- ───────────────────────────────────────────────────────────────────────────

/-- A whitespace character is not `w`. -/
theorem ne_w_of_isWs {c : Char} (h : isWs c = true) : c ≠ 'w' := by
  rintro rfl; exact absurd h (by decide)

/-- Membership in `starEnds` exhibits the consumed run of class characters. -/
theorem mem_starEnds (f : Char → Bool) :
    ∀ (s : List Char) (p : Option Char) (rest : List Char) (p' : Option Char),
      (rest, p') ∈ RE.starEnds f p s →
      ∃ mid, s = mid ++ rest ∧ ∀ c ∈ mid, f c = true := by
  intro s
  induction s with
  | nil =>
      intro p rest p' h
      simp only [RE.starEnds, List.mem_singleton, Prod.mk.injEq] at h
      exact ⟨[], by simp [h.1], by simp⟩
  | cons c cs ih =>
      intro p rest p' h
      simp only [RE.starEnds] at h
      by_cases hc : f c = true
      · rw [if_pos hc] at h
        rcases List.mem_append.mp h with h1 | h2
        · rcases ih _ _ _ h1 with ⟨mid, hmid, hall⟩
          refine ⟨c :: mid, by simp [hmid], ?_⟩
          intro x hx
          rcases List.mem_cons.mp hx with rfl | hx
          · exact hc
          · exact hall x hx
        · simp only [List.mem_singleton, Prod.mk.injEq] at h2
          exact ⟨[], by simp [h2.1], by simp⟩
      · rw [if_neg hc] at h
        simp only [List.mem_singleton, Prod.mk.injEq] at h
        exact ⟨[], by simp [h.1], by simp⟩

/-- Every `matchEnds` candidate is a suffix of the subject. -/
theorem matchEnds_suffix :
    ∀ (r : RE) (p : Option Char) (s rest : List Char) (p' : Option Char),
      (rest, p') ∈ RE.matchEnds r p s → rest <:+ s := by
  intro r
  induction r with
  | eps =>
      intro p s rest p' h
      simp only [RE.matchEnds, List.mem_singleton, Prod.mk.injEq] at h
      exact h.1 ▸ List.suffix_refl _
  | chr f =>
      intro p s rest p' h
      cases s with
      | nil => simp [RE.matchEnds] at h
      | cons c cs =>
          simp only [RE.matchEnds] at h
          by_cases hc : f c = true
          · rw [if_pos hc] at h
            simp only [List.mem_singleton, Prod.mk.injEq] at h
            exact h.1 ▸ (List.suffix_cons c cs)
          · rw [if_neg hc] at h; simp at h
  | seq a b iha ihb =>
      intro p s rest p' h
      simp only [RE.matchEnds] at h
      rcases List.mem_flatMap.mp h with ⟨q, hq, h2⟩
      exact List.IsSuffix.trans (ihb _ _ _ _ h2) (iha _ _ _ _ hq)
  | alt a b iha ihb =>
      intro p s rest p' h
      simp only [RE.matchEnds] at h
      rcases List.mem_append.mp h with h1 | h2
      · exact iha _ _ _ _ h1
      · exact ihb _ _ _ _ h2
  | opt a iha =>
      intro p s rest p' h
      simp only [RE.matchEnds] at h
      rcases List.mem_append.mp h with h1 | h2
      · exact iha _ _ _ _ h1
      · simp only [List.mem_singleton, Prod.mk.injEq] at h2
        exact h2.1 ▸ List.suffix_refl _
  | bnd =>
      intro p s rest p' h
      simp only [RE.matchEnds] at h
      split at h
      · simp only [List.mem_singleton, Prod.mk.injEq] at h
        exact h.1 ▸ List.suffix_refl _
      · simp at h
  | star f =>
      intro p s rest p' h
      rcases mem_starEnds f s p rest p' h with ⟨mid, hmid, _⟩
      exact hmid ▸ List.suffix_append mid rest

/-- A literal consumes exactly its characters. -/
theorem mem_matchEnds_lit :
    ∀ (cs : List Char) (p : Option Char) (s rest : List Char) (p' : Option Char),
      (rest, p') ∈ RE.matchEnds (RE.lit cs) p s → s = cs ++ rest := by
  intro cs
  induction cs with
  | nil =>
      intro p s rest p' h
      simp only [RE.lit, RE.matchEnds, List.mem_singleton, Prod.mk.injEq] at h
      simp [h.1]
  | cons c cs' ih =>
      intro p s rest p' h
      simp only [RE.lit, RE.matchEnds] at h
      rcases List.mem_flatMap.mp h with ⟨q, hq, h2⟩
      cases s with
      | nil => simp at hq
      | cons c₀ s' =>
          by_cases hc : c₀ = c
          · simp only [hc] at hq
            simp only [decide_true_eq_true, if_true, decide_True, if_pos,
              List.mem_singleton] at hq
            subst hq
            have h3 := ih _ _ _ _ h2
            simp only at h3
            simp [hc, h3]
          · simp [hc] at hq

/-- A single character class consumes exactly one matching character. -/
theorem mem_matchEnds_chr {f : Char → Bool} {p : Option Char}
    {s rest : List Char} {p' : Option Char}
    (h : (rest, p') ∈ RE.matchEnds (.chr f) p s) :
    ∃ c, s = c :: rest ∧ f c = true ∧ p' = some c := by
  cases s with
  | nil => simp [RE.matchEnds] at h
  | cons c cs =>
      simp only [RE.matchEnds] at h
      by_cases hc : f c = true
      · rw [if_pos hc] at h
        simp only [List.mem_singleton, Prod.mk.injEq] at h
        exact ⟨c, by simp [h.1], hc, h.2⟩
      · rw [if_neg hc] at h; simp at h

/-- Sequencing decomposes into its two halves. -/
theorem mem_matchEnds_seq {a b : RE} {p : Option Char} {s rest : List Char}
    {p' : Option Char} (h : (rest, p') ∈ RE.matchEnds (.seq a b) p s) :
    ∃ r₁ p₁, (r₁, p₁) ∈ RE.matchEnds a p s ∧ (rest, p') ∈ RE.matchEnds b p₁ r₁ := by
  simp only [RE.matchEnds] at h
  rcases List.mem_flatMap.mp h with ⟨q, hq, h2⟩
  exact ⟨q.1, q.2, hq, h2⟩

/-- An option either takes its branch or consumes nothing. -/
theorem mem_matchEnds_opt {a : RE} {p : Option Char} {s rest : List Char}
    {p' : Option Char} (h : (rest, p') ∈ RE.matchEnds (.opt a) p s) :
    (rest, p') ∈ RE.matchEnds a p s ∨ (rest = s ∧ p' = p) := by
  simp only [RE.matchEnds] at h
  rcases List.mem_append.mp h with h1 | h2
  · exact Or.inl h1
  · simp only [List.mem_singleton, Prod.mk.injEq] at h2
    exact Or.inr h2

/-- A boundary assertion consumes nothing. -/
theorem mem_matchEnds_bnd {p : Option Char} {s rest : List Char}
    {p' : Option Char} (h : (rest, p') ∈ RE.matchEnds .bnd p s) :
    rest = s ∧ p' = p := by
  simp only [RE.matchEnds] at h
  split at h
  · simp only [List.mem_singleton, Prod.mk.injEq] at h
    exact h
  · simp at h

-- ───────────────────────────────────────────────────────────────────────────
-- C8: the guarantee pattern
-- ───────────────────────────────────────────────────────────────────────────

/-- The guarantee pattern with its `seqList` assembly unfolded. -/
theorem RULE1_pattern_eq :
    RULE1.pattern = .seq .bnd (.seq (.opt (.seq (RE.lits "we") RE.wsPlus))
      (.seq (RE.lits "guarantee")
        (.seq (.opt (.chr (fun c => c = 'd' ∨ c = 's'))) .bnd))) := rfl

/-- Shape of a guarantee-pattern match: at least nine characters are
consumed, and `w` can occur only as the very first consumed character. -/
theorem pat1_consumed {p : Option Char} {s rest : List Char} {p' : Option Char}
    (h : (rest, p') ∈ RE.matchEnds RULE1.pattern p s) :
    ∃ mid, s = mid ++ rest ∧ 9 ≤ mid.length ∧ 'w' ∉ mid.tail := by
  rw [RULE1_pattern_eq] at h
  rcases mem_matchEnds_seq h with ⟨r₁, p₁, h1, ha⟩
  obtain ⟨rfl, rfl⟩ := mem_matchEnds_bnd h1
  rcases mem_matchEnds_seq ha with ⟨r₂, p₂, h2, hb⟩
  rcases mem_matchEnds_seq hb with ⟨r₃, p₃, h3, hc⟩
  have hg : r₂ = "guarantee".data ++ r₃ := mem_matchEnds_lit _ _ _ _ _ h3
  rcases mem_matchEnds_seq hc with ⟨r₄, p₄, h4, h5⟩
  obtain ⟨rfl, rfl⟩ := mem_matchEnds_bnd h5
  have hds : (∃ cd, r₃ = cd :: rest ∧ (cd = 'd' ∨ cd = 's')) ∨ r₃ = rest := by
    rcases mem_matchEnds_opt h4 with h4' | ⟨h4a, _⟩
    · rcases mem_matchEnds_chr h4' with ⟨cd, hcd, hfd, _⟩
      exact Or.inl ⟨cd, hcd, by simpa using hfd⟩
    · exact Or.inr h4a.symm
  have hwe : (∃ c₁ midw, r₁ = "we".data ++ c₁ :: (midw ++ r₂) ∧ isWs c₁ = true
      ∧ ∀ c ∈ midw, isWs c = true) ∨ r₂ = r₁ := by
    rcases mem_matchEnds_opt h2 with h2' | ⟨h2a, _⟩
    · rcases mem_matchEnds_seq h2' with ⟨rw1, pw1, hwe1, hwsp⟩
      have hs : r₁ = "we".data ++ rw1 := mem_matchEnds_lit _ _ _ _ _ hwe1
      simp only [RE.wsPlus, RE.ws] at hwsp
      rcases mem_matchEnds_seq hwsp with ⟨rw2, pw2, hws1, hstar⟩
      rcases mem_matchEnds_chr hws1 with ⟨c₁, hc₁, hwsc₁, _⟩
      simp only [RE.matchEnds] at hstar
      rcases mem_starEnds _ _ _ _ _ hstar with ⟨midw, hmw, hallw⟩
      exact Or.inl ⟨c₁, midw, by rw [hs, hc₁, hmw], hwsc₁, hallw⟩
    · exact Or.inr h2a
  have hgl : ("guarantee".data : List Char).length = 9 := rfl
  have hgw : 'w' ∉ ("guarantee".data : List Char) := by decide
  rcases hwe with ⟨c₁, midw, hseq, hwsc₁, hallw⟩ | hsimple
  · rcases hds with ⟨cd, hcd, hdsv⟩ | hnods
    · refine ⟨'w' :: 'e' :: c₁ :: (midw ++ "guarantee".data ++ [cd]), ?_, ?_, ?_⟩
      · rw [hseq, hg, hcd]
        simp [List.append_assoc, show ("we".data : List Char) = ['w', 'e'] from rfl]
      · simp only [List.length_cons, List.length_append, hgl, List.length_singleton]
        omega
      · intro hmem
        simp only [List.tail_cons, List.mem_cons, List.mem_append,
          List.mem_singleton] at hmem
        rcases hmem with h' | h' | (h' | h') | h'
        · exact absurd h' (by decide)
        · exact (ne_w_of_isWs hwsc₁) h'.symm
        · exact absurd (hallw _ h') (by decide)
        · exact absurd h' (by decide)
        · rcases hdsv with rfl | rfl <;> exact absurd h' (by decide)
    · refine ⟨'w' :: 'e' :: c₁ :: (midw ++ "guarantee".data), ?_, ?_, ?_⟩
      · rw [hseq, hg, hnods]
        simp [List.append_assoc, show ("we".data : List Char) = ['w', 'e'] from rfl]
      · simp only [List.length_cons, List.length_append, hgl]
        omega
      · intro hmem
        simp only [List.tail_cons, List.mem_cons, List.mem_append] at hmem
        rcases hmem with h' | h' | h' | h'
        · exact absurd h' (by decide)
        · exact (ne_w_of_isWs hwsc₁) h'.symm
        · exact absurd (hallw _ h') (by decide)
        · exact absurd h' (by decide)
  · rcases hds with ⟨cd, hcd, hdsv⟩ | hnods
    · refine ⟨"guarantee".data ++ [cd], ?_, ?_, ?_⟩
      · rw [← hsimple, hg, hcd]; simp
      · simp only [List.length_append, hgl, List.length_singleton]; omega
      · intro hmem
        have h' : 'w' ∈ ("guarantee".data : List Char) ++ [cd] :=
          List.mem_of_mem_tail hmem
        rcases List.mem_append.mp h' with h'' | h''
        · exact hgw h''
        · simp only [List.mem_singleton] at h''
          rcases hdsv with rfl | rfl <;> exact absurd h'' (by decide)
    · refine ⟨"guarantee".data, ?_, ?_, ?_⟩
      · rw [← hsimple, hg, hnods]
      · omega
      · intro hmem
        exact hgw (List.mem_of_mem_tail hmem)

/-- `matchEnds` of a pattern starting with a boundary assertion. -/
theorem matchEnds_seq_bnd (R : RE) (p : Option Char) (s : List Char) :
    RE.matchEnds (.seq .bnd R) p s =
      if isBoundary p s.head? then RE.matchEnds R p s else [] := by
  simp only [RE.matchEnds]
  split <;> simp

/-- At the occurrence of `we guarantee ` itself, with the boundary
satisfied, the guarantee pattern has exactly one candidate, consuming
`we guarantee`. -/
theorem matchEnds_wg (p₀ : Option Char) (v : List Char)
    (hb : isBoundary p₀ (some 'w') = true) :
    RE.matchEnds RULE1.pattern p₀ ("we guarantee ".data ++ v)
      = [(' ' :: v, some 'e')] := by
  rw [RULE1_pattern_eq, matchEnds_seq_bnd]
  simp only [show (("we guarantee ".data : List Char) ++ v).head? = some 'w'
    from rfl, hb, if_true]
  rfl

/-- With the boundary before the occurrence violated, there is no
candidate at the occurrence. -/
theorem matchEnds_wg_nb (p₀ : Option Char) (v : List Char)
    (hb : isBoundary p₀ (some 'w') = false) :
    RE.matchEnds RULE1.pattern p₀ ("we guarantee ".data ++ v) = [] := by
  rw [RULE1_pattern_eq, matchEnds_seq_bnd]
  simp only [show (("we guarantee ".data : List Char) ++ v).head? = some 'w'
    from rfl, hb]
  simp

/-- Three characters into the occurrence the pattern matches bare
`guarantee`, again with a single candidate. -/
theorem matchEnds_g (v : List Char) :
    RE.matchEnds RULE1.pattern (some ' ') ("guarantee ".data ++ v)
      = [(' ' :: v, some 'e')] := rfl

/-- One character into the occurrence there is no candidate. -/
theorem matchEnds_e (v : List Char) :
    RE.matchEnds RULE1.pattern (some 'w') ("e guarantee ".data ++ v) = [] := rfl

/-- Two characters into the occurrence there is no candidate. -/
theorem matchEnds_sp (v : List Char) :
    RE.matchEnds RULE1.pattern (some 'e') (" guarantee ".data ++ v) = [] := rfl

-- ───────────────────────────────────────────────────────────────────────────
-- C8: the search loop
-- ───────────────────────────────────────────────────────────────────────────

/-- Dropping one more character, and the previous character after doing so. -/
theorem drop_cons_succ {t : List Char} {i : Nat} {c : Char} {r : List Char}
    (h : t.drop i = c :: r) :
    t.drop (i + 1) = r ∧ prevAt t (i + 1) = some c := by
  have h0 := List.getElem?_drop t i 0
  rw [h] at h0
  constructor
  · have h1 := List.drop_drop 1 i t
    rw [h] at h1
    simpa using h1.symm
  · have hc : t[i]? = some c := by simpa using h0.symm
    simp [prevAt, hc]

/-- A successful `findFromAux` run starting inside the text reports a
position at or after the start whose candidate list is nonempty, the end
offset coming from the head candidate. -/
theorem findFromAux_spec (r : RE) (t : List Char) :
    ∀ (s : List Char) (i : Nat), s = t.drop i →
      ∀ s₀ e₀, findFromAux r (prevAt t i) s i = some (s₀, e₀) →
      i ≤ s₀ ∧ ∃ rest p',
        (RE.matchEnds r (prevAt t s₀) (t.drop s₀)).head? = some (rest, p')
          ∧ e₀ = s₀ + ((t.length - s₀) - rest.length) := by
  intro s
  induction s with
  | nil =>
      intro i hdrop s₀ e₀ hfind
      unfold findFromAux at hfind
      split at hfind
      · next q hq =>
          simp only [Option.some.injEq, Prod.mk.injEq] at hfind
          obtain ⟨rfl, rfl⟩ := hfind
          refine ⟨le_refl _, q.1, q.2, ?_, ?_⟩
          · rw [hdrop] at hq; exact hq
          · rw [hdrop, List.length_drop]
      · exact absurd hfind (by simp)
  | cons c cs ih =>
      intro i hdrop s₀ e₀ hfind
      unfold findFromAux at hfind
      split at hfind
      · next q hq =>
          simp only [Option.some.injEq, Prod.mk.injEq] at hfind
          obtain ⟨rfl, rfl⟩ := hfind
          refine ⟨le_refl _, q.1, q.2, ?_, ?_⟩
          · rw [hdrop] at hq; exact hq
          · rw [hdrop, List.length_drop]
      · obtain ⟨hd1, hd2⟩ := drop_cons_succ hdrop.symm
        rw [← hd2] at hfind
        rcases ih (i + 1) hd1.symm s₀ e₀ hfind with ⟨hle, rest, p', hh, he⟩
        exact ⟨by omega, rest, p', hh, he⟩

/-- If the candidate list at some position is nonempty, `findFromAux`
succeeds and reports a position no later than it. -/
theorem findFromAux_head_some (r : RE) (p : Option Char) (s : List Char)
    (i : Nat) (q : List Char × Option Char)
    (hq : (RE.matchEnds r p s).head? = some q) :
    findFromAux r p s i = some (i, i + (s.length - q.1.length)) := by
  cases s with
  | nil => unfold findFromAux; rw [hq]
  | cons c cs => unfold findFromAux; rw [hq]

/-- `findFromAux` finds a match if one exists at or after its start. -/
theorem findFromAux_exists (r : RE) (t : List Char) :
    ∀ (n i j : Nat), j = i + n → j ≤ t.length →
      RE.matchEnds r (prevAt t j) (t.drop j) ≠ [] →
      ∃ s₀ e₀, findFromAux r (prevAt t i) (t.drop i) i = some (s₀, e₀)
        ∧ s₀ ≤ j := by
  intro n
  induction n with
  | zero =>
      intro i j hj hlen hne
      have hij : j = i := by omega
      subst hij
      cases hhead : (RE.matchEnds r (prevAt t j) (t.drop j)).head? with
      | some q => exact ⟨j, _, findFromAux_head_some r _ _ j q hhead, le_refl j⟩
      | none => exact absurd (List.head?_eq_none_iff.mp hhead) hne
  | succ m ih =>
      intro i j hj hlen hne
      cases hhead : (RE.matchEnds r (prevAt t i) (t.drop i)).head? with
      | some q =>
          exact ⟨i, _, findFromAux_head_some r _ _ i q hhead, by omega⟩
      | none =>
          have hi : i < t.length := by omega
          cases hdi : t.drop i with
          | nil =>
              have hl := List.length_drop i t
              rw [hdi] at hl
              simp at hl
              omega
          | cons c cs =>
              obtain ⟨hd1, hd2⟩ := drop_cons_succ hdi
              rw [hdi] at hhead
              have step : findFromAux r (prevAt t i) (c :: cs) i
                  = findFromAux r (some c) cs (i + 1) := by
                conv_lhs => unfold findFromAux
                rw [hhead]
              rcases ih (i + 1) j (by omega) hlen hne with ⟨s₀, e₀, hrec, hle⟩
              rw [hd2, hd1] at hrec
              exact ⟨s₀, e₀, step.trans hrec, hle⟩

/-- Scanning a text containing `we guarantee ` at offset `u.length` with
the guarantee pattern emits a match starting at most three characters past
the occurrence start and ending twelve characters into the occurrence. -/
theorem finditerAux_hits (u v : List Char) :
    ∀ (fuel pos : Nat), pos ≤ u.length →
      (u ++ (wgPat ++ v)).length + 1 - pos ≤ fuel →
      ∃ se ∈ finditerAux RULE1.pattern (u ++ (wgPat ++ v)) pos fuel,
        u.length ≤ se.1 ∧ se.1 ≤ u.length + 3 ∧ se.2 = u.length + 12 := by
  intro fuel
  induction fuel with
  | zero =>
      intro pos hpos hfuel
      exfalso
      have hlen : (u ++ (wgPat ++ v)).length = u.length + (13 + v.length) := by
        rw [List.length_append, List.length_append,
          show wgPat.length = 13 from rfl]
      omega
  | succ m ih =>
      intro pos hpos hfuel
      have hlen : (u ++ (wgPat ++ v)).length = u.length + (13 + v.length) := by
        rw [List.length_append, List.length_append,
          show wgPat.length = 13 from rfl]
      have hdropq : (u ++ (wgPat ++ v)).drop u.length = wgPat ++ v :=
        List.drop_left u (wgPat ++ v)
      have hget : ∀ j : Nat, j < 13 →
          (u ++ (wgPat ++ v))[u.length + j]? = wgPat[j]? := by
        intro j hj
        have h0 := List.getElem?_drop (u ++ (wgPat ++ v)) u.length j
        rw [hdropq] at h0
        rw [← h0, List.getElem?_append, if_pos (show j < wgPat.length from hj)]
      have w0 : wgPat[0]? = some 'w' := by decide
      have w1 : wgPat[1]? = some 'e' := by decide
      have w2 : wgPat[2]? = some ' ' := by decide
      have hpw : (u ++ (wgPat ++ v))[u.length]? = some 'w' := by
        have h0 := hget 0 (by omega)
        rw [w0] at h0
        simpa using h0
      have hpe : (u ++ (wgPat ++ v))[u.length + 1]? = some 'e' := by
        have h0 := hget 1 (by omega); rw [w1] at h0; exact h0
      have hpsp : (u ++ (wgPat ++ v))[u.length + 2]? = some ' ' := by
        have h0 := hget 2 (by omega); rw [w2] at h0; exact h0
      have hprev1 : prevAt (u ++ (wgPat ++ v)) (u.length + 1) = some 'w' := by
        unfold prevAt
        rw [if_neg (by omega)]
        exact hpw
      have hprev2 : prevAt (u ++ (wgPat ++ v)) (u.length + 2) = some 'e' := by
        unfold prevAt
        rw [if_neg (by omega)]
        exact hpe
      have hprev3 : prevAt (u ++ (wgPat ++ v)) (u.length + 3) = some ' ' := by
        unfold prevAt
        rw [if_neg (by omega)]
        exact hpsp
      have hd0 : (u ++ (wgPat ++ v)).drop u.length
          = "we guarantee ".data ++ v := hdropq
      have hd1 : (u ++ (wgPat ++ v)).drop (u.length + 1)
          = "e guarantee ".data ++ v := by
        rw [← List.drop_drop 1 u.length, hdropq]
        rfl
      have hd2 : (u ++ (wgPat ++ v)).drop (u.length + 2)
          = " guarantee ".data ++ v := by
        rw [← List.drop_drop 2 u.length, hdropq]
        rfl
      have hd3 : (u ++ (wgPat ++ v)).drop (u.length + 3)
          = "guarantee ".data ++ v := by
        rw [← List.drop_drop 3 u.length, hdropq]
        rfl
      have hne3 : RE.matchEnds RULE1.pattern
          (prevAt (u ++ (wgPat ++ v)) (u.length + 3))
          ((u ++ (wgPat ++ v)).drop (u.length + 3)) ≠ [] := by
        rw [hprev3, hd3, matchEnds_g]
        simp
      obtain ⟨s₀, e₀, hfind, hs₀le⟩ := findFromAux_exists RULE1.pattern
        (u ++ (wgPat ++ v)) (u.length + 3 - pos) pos (u.length + 3)
        (by omega) (by omega) hne3
      obtain ⟨hposle, rest, p', hhead, he₀⟩ := findFromAux_spec RULE1.pattern
        (u ++ (wgPat ++ v)) ((u ++ (wgPat ++ v)).drop pos) pos rfl s₀ e₀ hfind
      have hff : findFrom RULE1.pattern (u ++ (wgPat ++ v)) pos
          = some (s₀, e₀) := hfind
      have hstep : finditerAux RULE1.pattern (u ++ (wgPat ++ v)) pos (m + 1)
          = (s₀, e₀) :: finditerAux RULE1.pattern (u ++ (wgPat ++ v))
              (if e₀ ≤ s₀ then s₀ + 1 else e₀) m := by
        conv_lhs => unfold finditerAux
        rw [hff]
        rfl
      rcases Nat.lt_or_ge s₀ u.length with hlt | hge
      · -- the found match lies entirely before the occurrence
        have hmem := List.mem_of_mem_head? hhead
        obtain ⟨mid, hmid, hmidlen, hwtail⟩ := pat1_consumed hmem
        have hmidrest : (u ++ (wgPat ++ v)).length - s₀
            = mid.length + rest.length := by
          have hh := congrArg List.length hmid
          rw [List.length_drop] at hh
          rw [show (mid ++ rest).length = mid.length + rest.length
            by simp] at hh
          omega
        have he₀' : e₀ = s₀ + mid.length := by omega
        have he₀q : e₀ ≤ u.length := by
          by_contra hgt
          push_neg at hgt
          have hqin : u.length - s₀ < mid.length := by omega
          have h1 := List.getElem?_drop (u ++ (wgPat ++ v)) s₀ (u.length - s₀)
          rw [Nat.add_sub_cancel' (Nat.le_of_lt hlt)] at h1
          rw [hmid, hpw] at h1
          rw [List.getElem?_append, if_pos hqin] at h1
          cases hmidc : mid with
          | nil => rw [hmidc] at hqin; simp at hqin
          | cons m₀ mtail =>
              rw [hmidc] at h1
              have hmt : mtail[u.length - s₀ - 1]? = some 'w' := by
                rw [← h1]
                cases hk : u.length - s₀ with
                | zero => omega
                | succ k => simp
              have hwmem : 'w' ∈ mtail := List.getElem?_mem hmt
              rw [hmidc] at hwtail
              simp only [List.tail_cons] at hwtail
              exact hwtail hwmem
        have hif : (if e₀ ≤ s₀ then s₀ + 1 else e₀) = e₀ := if_neg (by omega)
        rw [hif] at hstep
        obtain ⟨se, hsemem, hprop⟩ := ih e₀ he₀q (by omega)
        exact ⟨se, by rw [hstep]; exact List.mem_cons_of_mem _ hsemem, hprop⟩
      · -- the found match starts within three characters of the occurrence
        have hcases : s₀ = u.length ∨ s₀ = u.length + 1 ∨ s₀ = u.length + 2
            ∨ s₀ = u.length + 3 := by omega
        rcases hcases with h0 | h1 | h2 | h3
        · rw [h0, hd0] at hhead
          cases hb : isBoundary (prevAt (u ++ (wgPat ++ v)) u.length)
              (some 'w') with
          | false =>
              rw [matchEnds_wg_nb _ v hb] at hhead
              simp at hhead
          | true =>
              rw [matchEnds_wg _ v hb] at hhead
              simp only [List.head?_cons, Option.some.injEq,
                Prod.mk.injEq] at hhead
              have hrl : rest.length = v.length + 1 := by
                rw [← hhead.1]; simp
              have he12 : e₀ = u.length + 12 := by omega
              exact ⟨(s₀, e₀),
                by rw [hstep]; exact List.mem_cons_self _ _,
                by omega, by omega, he12⟩
        · rw [h1, hprev1, hd1, matchEnds_e] at hhead
          simp at hhead
        · rw [h2, hprev2, hd2, matchEnds_sp] at hhead
          simp at hhead
        · rw [h3, hprev3, hd3, matchEnds_g] at hhead
          simp only [List.head?_cons, Option.some.injEq,
            Prod.mk.injEq] at hhead
          have hrl : rest.length = v.length + 1 := by
            rw [← hhead.1]; simp
          have he12 : e₀ = u.length + 12 := by omega
          exact ⟨(s₀, e₀),
            by rw [hstep]; exact List.mem_cons_self _ _,
            by omega, by omega, he12⟩

/-- The finditer over such a text contains the emitted match. -/
theorem finditer_hits (u v : List Char) :
    ∃ se ∈ finditer RULE1.pattern (u ++ (wgPat ++ v)),
      u.length ≤ se.1 ∧ se.1 ≤ u.length + 3 ∧ se.2 = u.length + 12 := by
  have h := finditerAux_hits u v ((u ++ (wgPat ++ v)).length + 1) 0
    (by omega) (by omega)
  simpa [finditer] using h

-- ───────────────────────────────────────────────────────────────────────────
-- C8: flag contexts, keys and deduplication
-- ───────────────────────────────────────────────────────────────────────────

/-- `str.strip` is the identity on the dot-delimited context strings. -/
theorem stripChars_ctx (m : List Char) :
    stripChars ('.' :: '.' :: '.' :: (m ++ ['.', '.', '.'])) =
      '.' :: '.' :: '.' :: (m ++ ['.', '.', '.']) := by
  have hdw : ∀ (l : List Char), List.dropWhile isWs ('.' :: l) = '.' :: l := by
    intro l
    rw [List.dropWhile_cons, show isWs '.' = false from by decide]
    simp
  unfold stripChars
  rw [hdw]
  rw [show ('.' :: '.' :: '.' :: (m ++ ['.', '.', '.'])).reverse
      = '.' :: '.' :: '.' :: (m.reverse ++ ['.', '.', '.']) by simp]
  rw [hdw]
  simp

/-- The context field of a generated flag, spelled out. -/
theorem flagOf_text_eq (p : Rule71Pattern) (sec : ContentSection)
    (q : Nat × Nat) :
    (flagOf p sec q).text.data
      = '.' :: '.' :: '.' :: (windowOf sec q ++ ['.', '.', '.']) := by
  rw [show (flagOf p sec q).text.data
      = stripChars ('.' :: '.' :: '.' :: (windowOf sec q ++ ['.', '.', '.']))
    from rfl, stripChars_ctx]

/-- The dedup key of a generated flag, spelled out. -/
theorem flagKey_flagOf (p : Rule71Pattern) (sec : ContentSection)
    (q : Nat × Nat) :
    flagKey (flagOf p sec q)
      = ('.' :: '.' :: '.' :: (windowOf sec q ++ ['.', '.', '.'])).take 80 := by
  unfold flagKey
  rw [flagOf_text_eq]

/-- An infix avoiding a character can be pushed past a head occurrence of
that character. -/
theorem infix_of_cons_not_mem {a : Char} {c l : List Char} (hn : a ∉ c)
    (h : c <:+: (a :: l)) : c <:+: l := by
  rcases h with ⟨x, y, hxy⟩
  cases x with
  | nil =>
      cases c with
      | nil => exact List.nil_infix
      | cons c₀ cr =>
          simp only [List.nil_append, List.cons_append,
            List.cons.injEq] at hxy
          exact absurd (hxy.1 ▸ List.mem_cons_self c₀ cr) hn
  | cons x₀ xr =>
      simp only [List.cons_append, List.cons.injEq] at hxy
      exact ⟨xr, y, hxy.2⟩

/-- A dot-free infix of `m ++ "..."` is an infix of `m`. -/
theorem infix_of_append_dots {c m : List Char} (hn : '.' ∉ c)
    (h : c <:+: (m ++ ['.', '.', '.'])) : c <:+: m := by
  have hrev : c.reverse <:+: ('.' :: '.' :: '.' :: m.reverse) := by
    have h0 := List.reverse_infix.mpr h
    simpa using h0
  have hn' : '.' ∉ c.reverse := by simpa using hn
  have h1 := infix_of_cons_not_mem hn' hrev
  have h2 := infix_of_cons_not_mem hn' h1
  have h3 := infix_of_cons_not_mem hn' h2
  exact List.reverse_infix.mp h3

/-- A dot-free infix of a flag key occurs in the section text. -/
theorem key_infix_text {pr : Rule71Pattern} {sec : ContentSection}
    {q : Nat × Nat} {c : List Char} (hdot : '.' ∉ c)
    (h : c <:+: flagKey (flagOf pr sec q)) : c <:+: sec.text.data := by
  rw [flagKey_flagOf] at h
  have h1 : c <:+: ('.' :: '.' :: '.' :: (windowOf sec q ++ ['.', '.', '.'])) :=
    h.trans (List.take_prefix _ _).isInfix
  have h2 := infix_of_cons_not_mem hdot h1
  have h3 := infix_of_cons_not_mem hdot h2
  have h4 := infix_of_cons_not_mem hdot h3
  have h5 := infix_of_append_dots hdot h4
  have h6 : windowOf sec q <:+: sec.text.data := by
    unfold windowOf
    exact (List.take_prefix _ _).isInfix.trans (List.drop_suffix _ _).isInfix
  exact h5.trans h6

/-- Flags of a section come from a pattern-table entry and a match. -/
theorem mem_sectionComplianceFlags {sec : ContentSection} {f : ComplianceFlag}
    (h : f ∈ sectionComplianceFlags sec) :
    ∃ p ∈ RULE_71_PATTERNS, ∃ q ∈ finditer p.pattern (lowerData sec.text),
      f = flagOf p sec q := by
  unfold sectionComplianceFlags at h
  rcases List.mem_flatMap.mp h with ⟨p, hp, hf⟩
  rcases List.mem_map.mp hf with ⟨q, hq, rfl⟩
  exact ⟨p, hp, q, hq, rfl⟩

/-- A dot-free infix of any flag key of a section occurs in that
section's text. -/
theorem flag_key_in_section {sec : ContentSection} {f : ComplianceFlag}
    (hf : f ∈ sectionComplianceFlags sec) {c : List Char} (hdot : '.' ∉ c)
    (h : c <:+: flagKey f) : c <:+: sec.text.data := by
  rcases mem_sectionComplianceFlags hf with ⟨p, _, q, _, rfl⟩
  exact key_infix_text hdot h

/-- If a block of flags that all satisfy `P` holds a flag with key `k`,
and `k` is unseen, deduplication keeps some `P`-flag. -/
theorem dedupFlagsAux_mid (P : ComplianceFlag → Prop) (k : List Char) :
    ∀ (lmid lpost : List ComplianceFlag) (seen : List (List Char)),
      k ∉ seen → (∃ f ∈ lmid, flagKey f = k) → (∀ f ∈ lmid, P f) →
      ∃ g ∈ dedupFlagsAux seen (lmid ++ lpost), P g := by
  intro lmid
  induction lmid with
  | nil =>
      intro lpost seen _ hex _
      simp at hex
  | cons f lrest ih =>
      intro lpost seen hk hex hall
      simp only [List.cons_append]
      unfold dedupFlagsAux
      split
      · next hin =>
          have hne : flagKey f ≠ k := fun hkey => hk (hkey ▸ hin)
          have hex' : ∃ f' ∈ lrest, flagKey f' = k := by
            rcases hex with ⟨f', hf', hkey⟩
            rcases List.mem_cons.mp hf' with rfl | hmem
            · exact absurd hkey hne
            · exact ⟨f', hmem, hkey⟩
          exact ih lpost seen hk hex'
            (fun f' hf' => hall f' (List.mem_cons_of_mem _ hf'))
      · next hnin =>
          exact ⟨f, List.mem_cons_self _ _, hall f (List.mem_cons_self _ _)⟩

/-- Flags whose keys all differ from `k` only grow the seen set by keys
other than `k`; the survivor from the later block remains. -/
theorem dedupFlagsAux_pre (P : ComplianceFlag → Prop) (k : List Char) :
    ∀ (lpre rest : List ComplianceFlag),
      (∀ seen, k ∉ seen → ∃ g ∈ dedupFlagsAux seen rest, P g) →
      ∀ (seen : List (List Char)), k ∉ seen →
      (∀ f ∈ lpre, flagKey f ≠ k) →
      ∃ g ∈ dedupFlagsAux seen (lpre ++ rest), P g := by
  intro lpre
  induction lpre with
  | nil =>
      intro rest hrest seen hk _
      simpa using hrest seen hk
  | cons f lrest ih =>
      intro rest hrest seen hk hne
      simp only [List.cons_append]
      unfold dedupFlagsAux
      split
      · exact ih rest hrest seen hk
          (fun f' hf' => hne f' (List.mem_cons_of_mem _ hf'))
      · have hkey : flagKey f ≠ k := hne f (List.mem_cons_self _ _)
        have hk' : k ∉ flagKey f :: seen := by
          intro hmem
          rcases List.mem_cons.mp hmem with h' | h'
          · exact hkey h'.symm
          · exact hk h'
        obtain ⟨g, hg, hP⟩ := ih rest hrest (flagKey f :: seen) hk'
          (fun f' hf' => hne f' (List.mem_cons_of_mem _ hf'))
        exact ⟨g, List.mem_cons_of_mem _ hg, hP⟩

/-- Splitting a mapped list along an append of its image. -/
theorem map_eq_append_split (f : Char → Char) :
    ∀ (a l b : List Char), l.map f = a ++ b →
      ∃ a' b', l = a' ++ b' ∧ a'.map f = a ∧ b'.map f = b := by
  intro a
  induction a with
  | nil =>
      intro l b h
      exact ⟨[], l, by simp, rfl, by simpa using h⟩
  | cons x xr ih =>
      intro l b h
      cases l with
      | nil => simp at h
      | cons y yr =>
          simp only [List.map_cons, List.cons_append, List.cons.injEq] at h
          obtain ⟨a', b', rfl, ha, hb⟩ := ih yr b h.2
          exact ⟨y :: a', b', by simp, by simp [h.1, ha], hb⟩

/-- Splitting a mapped list along a three-way append of its image. -/
theorem map_eq_append3_split (f : Char → Char) (l u mm v : List Char)
    (h : l.map f = u ++ mm ++ v) :
    ∃ u' m' v', l = u' ++ m' ++ v' ∧ u'.map f = u ∧ m'.map f = mm
      ∧ v'.map f = v ∧ u'.length = u.length := by
  obtain ⟨am, v', hl, ham, hv⟩ := map_eq_append_split f (u ++ mm) l v h
  obtain ⟨u', m', ham2, hu, hm⟩ := map_eq_append_split f u am mm ham
  refine ⟨u', m', v', by rw [hl, ham2], hu, hm, hv, ?_⟩
  have := congrArg List.length hu
  simpa using this

/-- `take` past a left factor. -/
theorem take_append_of_le_length {l₁ l₂ : List Char} {n : Nat}
    (h : l₁.length ≤ n) :
    (l₁ ++ l₂).take n = l₁ ++ l₂.take (n - l₁.length) := by
  rw [List.take_append_eq_append_take, List.take_of_length_le h]

/-- The occurrence the emitted match was found at lands inside the first
eighty characters of the flag context: the key contains it. -/
theorem key_contains_occurrence (sec : ContentSection) (p : Rule71Pattern)
    (u' m' v' : List Char) (hT : sec.text.data = u' ++ m' ++ v')
    (hm13 : m'.length = 13) (s e : Nat)
    (hqs : u'.length ≤ s) (hsq : s ≤ u'.length + 3)
    (he : e = u'.length + 12) :
    m' <:+: flagKey (flagOf p sec (s, e)) := by
  rw [flagKey_flagOf]
  have hwq : s - 50 ≤ u'.length := by omega
  have hqw50 : u'.length - (s - 50) ≤ 50 := by omega
  have hlenT : sec.text.data.length = u'.length + 13 + v'.length := by
    rw [hT]
    simp [List.length_append, hm13]
    omega
  have hce : u'.length + 13 ≤ min sec.text.data.length (e + 50) :=
    Nat.le_min.mpr ⟨by omega, by omega⟩
  have hdropT : sec.text.data.drop (s - 50)
      = (u'.drop (s - 50) ++ m') ++ v' := by
    rw [hT, List.drop_append_of_le_length
        (show s - 50 ≤ (u' ++ m').length by simp; omega),
      List.drop_append_of_le_length hwq]
  have hlen2 : (u'.drop (s - 50) ++ m').length
      = (u'.length - (s - 50)) + 13 := by
    simp [List.length_append, List.length_drop, hm13]
  have hle : (u'.drop (s - 50) ++ m').length
      ≤ min sec.text.data.length (e + 50) - (s - 50) := by
    rw [hlen2]
    omega
  have hwin : windowOf sec (s, e)
      = (u'.drop (s - 50) ++ m') ++ v'.take
          ((min sec.text.data.length (e + 50) - (s - 50))
            - ((u'.length - (s - 50)) + 13)) := by
    unfold windowOf
    dsimp only
    rw [hdropT, take_append_of_le_length hle, hlen2]
  rw [hwin]
  have hA80 : ('.' :: '.' :: '.' :: (u'.drop (s - 50) ++ m')).length ≤ 80 := by
    simp [List.length_append, List.length_drop, hm13]
    omega
  have hsplit : ('.' :: '.' :: '.' ::
        (((u'.drop (s - 50) ++ m') ++ v'.take
          ((min sec.text.data.length (e + 50) - (s - 50))
            - ((u'.length - (s - 50)) + 13))) ++ ['.', '.', '.']))
      = ('.' :: '.' :: '.' :: (u'.drop (s - 50) ++ m'))
        ++ (v'.take ((min sec.text.data.length (e + 50) - (s - 50))
            - ((u'.length - (s - 50)) + 13)) ++ ['.', '.', '.']) := by
    simp [List.append_assoc]
  rw [hsplit, take_append_of_le_length hA80]
  exact List.IsInfix.trans
    (List.IsSuffix.isInfix ⟨'.' :: '.' :: '.' :: u'.drop (s - 50), by simp⟩)
    (List.prefix_append _ _).isInfix

/-- The pattern table starts with the guarantee entry. -/
theorem RULE71_cons :
    RULE_71_PATTERNS = RULE1 :: RULE_71_PATTERNS.tail := rfl

/-- The flags of a section split into the guarantee-pattern flags followed
by those of the remaining table entries. -/
theorem sectionComplianceFlags_cons (sec : ContentSection) :
    sectionComplianceFlags sec
      = (finditer RULE1.pattern (lowerData sec.text)).map (flagOf RULE1 sec)
        ++ (RULE_71_PATTERNS.tail).flatMap
            (fun p => (finditer p.pattern (lowerData sec.text)).map
              (flagOf p sec)) := rfl

/-- Every guarantee-pattern flag is a high-severity Rule 7.1(a) flag. -/
theorem mem_map_flagOf_RULE1 {sec : ContentSection} {f : ComplianceFlag}
    (h : f ∈ (finditer RULE1.pattern (lowerData sec.text)).map
      (flagOf RULE1 sec)) :
    f.rule = "Rule 7.1(a)" ∧ f.severity = "high" := by
  rcases List.mem_map.mp h with ⟨q, _, rfl⟩
  exact ⟨rfl, rfl⟩

/-- Splitting a list at the first element satisfying a predicate. -/
theorem exists_first_split {α : Type} (p : α → Prop) :
    ∀ (l : List α), (∃ x ∈ l, p x) →
      ∃ l₁ x l₂, l = l₁ ++ x :: l₂ ∧ p x ∧ ∀ y ∈ l₁, ¬ p y := by
  intro l
  induction l with
  | nil => intro h; simp at h
  | cons a rest ih =>
      intro h
      by_cases hpa : p a
      · exact ⟨[], a, rest, by simp, hpa, by simp⟩
      · have hex : ∃ x ∈ rest, p x := by
          rcases h with ⟨x, hx, hpx⟩
          rcases List.mem_cons.mp hx with rfl | hmem
          · exact absurd hpx hpa
          · exact ⟨x, hmem, hpx⟩
        obtain ⟨l₁, x, l₂, hl, hpx, hall⟩ := ih hex
        refine ⟨a :: l₁, x, l₂, by simp [hl], hpx, ?_⟩
        intro y hy
        rcases List.mem_cons.mp hy with rfl | hmem
        · exact hpa
        · exact hall y hmem

/-- C8: for any content one of whose sections contains the text
`We guarantee you will win your case`, `scan_compliance` returns at least
one compliance flag with rule `Rule 7.1(a)` and severity `high`. -/
theorem C8_guarantee_flag (content : ExtractedContent)
    (h : ∃ sec ∈ content.sections,
        ("We guarantee you will win your case").data <:+: sec.text.data) :
    ∃ f ∈ scan_compliance content,
      f.rule = "Rule 7.1(a)" ∧ f.severity = "high" := by
  have hgoal : ∃ sec ∈ content.sections, wgPat <:+: lowerData sec.text := by
    rcases h with ⟨sec, hsec, hinf⟩
    refine ⟨sec, hsec, ?_⟩
    have h1 : ("We guarantee you will win your case").data.map lowerChar
        <:+: lowerData sec.text := List.IsInfix.map lowerChar hinf
    have h2 : wgPat
        <:+: ("We guarantee you will win your case").data.map lowerChar :=
      ⟨[], ("you will win your case").data, by decide⟩
    exact h2.trans h1
  obtain ⟨pre, secW, post, hsecs, hpw, hprenot⟩ :=
    exists_first_split (fun sec => wgPat <:+: lowerData sec.text)
      content.sections hgoal
  rcases hpw with ⟨u, v, huv⟩
  obtain ⟨u', m', v', hT, hu, hm, hv, hulen⟩ := map_eq_append3_split lowerChar
    secW.text.data u wgPat v huv.symm
  have hmlen : m'.length = 13 := by
    have h13 := congrArg List.length hm
    rw [List.length_map] at h13
    exact h13.trans rfl
  have htlow : lowerData secW.text = u ++ (wgPat ++ v) := by
    rw [← huv, List.append_assoc]
  obtain ⟨se, hsemem, hq1, hq2, hq3⟩ := finditer_hits u v
  rw [← htlow] at hsemem
  have hkeyinf : m' <:+: flagKey (flagOf RULE1 secW se) := by
    have hki := key_contains_occurrence secW RULE1 u' m' v' hT hmlen
      se.1 se.2 (by omega) (by omega) (by omega)
    exact hki
  have hdot : '.' ∉ m' := by
    intro hmem
    have hmap : lowerChar '.' ∈ wgPat := by
      rw [← hm]
      exact List.mem_map_of_mem lowerChar hmem
    rw [show lowerChar '.' = '.' from rfl] at hmap
    exact absurd hmap (by decide)
  unfold scan_compliance
  rw [hsecs, List.flatMap_append, List.flatMap_cons,
    sectionComplianceFlags_cons secW, List.append_assoc]
  refine dedupFlagsAux_pre
    (fun f => f.rule = "Rule 7.1(a)" ∧ f.severity = "high")
    (flagKey (flagOf RULE1 secW se)) _ _ ?_ [] (by simp) ?_
  · intro seen hk
    refine dedupFlagsAux_mid _ _ _ _ seen hk
      ⟨flagOf RULE1 secW se, List.mem_map_of_mem _ hsemem, rfl⟩ ?_
    intro f hf
    exact mem_map_flagOf_RULE1 hf
  · intro f hf hkey
    rcases List.mem_flatMap.mp hf with ⟨secP, hsecP, hfP⟩
    have hinf : m' <:+: flagKey f := hkey ▸ hkeyinf
    have htext := flag_key_in_section hfP hdot hinf
    have hlow : wgPat <:+: lowerData secP.text := by
      have hmapinf := List.IsInfix.map lowerChar htext
      rw [hm] at hmapinf
      exact hmapinf
    exact hprenot secP hsecP hlow

/-- C8 witness: the content whose only section is the spec phrase
satisfies the hypothesis, and the scanner flags it. -/
theorem C8_witness :
    (∃ sec ∈ c8Content.sections,
        ("We guarantee you will win your case").data <:+: sec.text.data)
      ∧ ∃ f ∈ scan_compliance c8Content,
          f.rule = "Rule 7.1(a)" ∧ f.severity = "high" :=
  ⟨by decide, C8_guarantee_flag c8Content (by decide)⟩

end EEAT
